import Mathlib

/-!
# PixelFlow — verification of the job-lifecycle core

A shallow embedding, in Lean 4, of the parts of the PixelFlow service that
the specification's claims are about: the shared token-bucket rate limiter,
the webhook emitter with HMAC signing and bounded retry, the control-plane
job admission and start handlers, the worker's process-image handler with
usage accounting, and the image pipeline (fetch → transform → emit).

Pure Go functions become Lean functions.  Stateful collaborators (the HTTP
client, the job store, the blob store, the queue) are modelled as explicit
inputs carrying the answer each external call would return, and handlers
return their observable effects (status writes, enqueue decisions, webhook
attempts, usage rows) alongside their results.  Durations are integer
nanoseconds, Unix times integer seconds, Redis token counts exact rationals.
-/

namespace PixelFlow

/-! ## ASCII string helpers mirroring the Go standard library uses -/

/-- The whitespace characters recognised by Go's Unicode white-space class
restricted to ASCII, which is all the repository's inputs use. -/
def goIsSpace (c : Char) : Bool :=
  c = ' ' ∨ c = '\t' ∨ c = '\n' ∨ c = (Char.ofNat 11) ∨ c = (Char.ofNat 12) ∨ c = '\r'

/-- Drop leading whitespace from a character list. -/
def dropLeadingWs : List Char → List Char
  | [] => []
  | c :: cs => if goIsSpace c then dropLeadingWs cs else c :: cs

/-- Drop trailing whitespace from a character list. -/
def dropTrailingWs (cs : List Char) : List Char :=
  (dropLeadingWs cs.reverse).reverse

/-- strings.TrimSpace for the ASCII inputs used throughout the service. -/
def goTrimSpace (s : String) : String :=
  ⟨dropTrailingWs (dropLeadingWs s.data)⟩

/-- ASCII lower-casing of one character, as strings.ToLower acts on ASCII. -/
def asciiLowerChar (c : Char) : Char :=
  if 'A' ≤ c ∧ c ≤ 'Z' then Char.ofNat (c.toNat + 32) else c

/-- strings.ToLower restricted to ASCII. -/
def goToLower (s : String) : String :=
  ⟨s.data.map asciiLowerChar⟩

/-- Decidable equality for collaborator answers. -/
instance {α β : Type} [DecidableEq α] [DecidableEq β] :
    DecidableEq (Except α β) := fun x y =>
  match x, y with
  | .error a, .error b =>
    if h : a = b then .isTrue (h ▸ rfl)
    else .isFalse (fun hc => h (Except.error.inj hc))
  | .ok a, .ok b =>
    if h : a = b then .isTrue (h ▸ rfl)
    else .isFalse (fun hc => h (Except.ok.inj hc))
  | .error _, .ok _ => .isFalse (fun hc => Except.noConfusion hc)
  | .ok _, .error _ => .isFalse (fun hc => Except.noConfusion hc)

/-! ## Domain model (internal/domain) -/

/-- domain.Watermark. -/
structure Watermark where
  text : String
  opacity : ℚ
  gravity : String
deriving Repr, DecidableEq

/-- domain.PipelineStep. -/
structure PipelineStep where
  id : String
  action : String
  width : ℤ
  format : String
  quality : ℤ
  watermark : Option Watermark
deriving Repr, DecidableEq

/-- domain.Job (the current schema, with a user column). -/
structure Job where
  id : String
  userID : String
  status : String
  sourceType : String
  webhookURL : String
  pipeline : List PipelineStep
  objectKey : String
deriving Repr, DecidableEq

def JobStatusCreated : String := "created"
def JobStatusQueued : String := "queued"
def JobStatusProcessing : String := "processing"
def JobStatusSucceeded : String := "succeeded"
def JobStatusFailed : String := "failed"

def SourceTypeLocalFile : String := "local_file"
def SourceTypeS3Presigned : String := "s3_presigned"

/-- domain.CreateJobRequest. -/
structure CreateJobRequest where
  sourceType : String
  webhookURL : String
  objectKey : String
  pipeline : List PipelineStep
deriving Repr, DecidableEq

/-- The per-step half of CreateJobRequest.Validate. -/
def validateSteps : List PipelineStep → ℕ → Option String
  | [], _ => none
  | step :: rest, i =>
    if goTrimSpace step.id = "" then
      some ("pipeline[" ++ toString i ++ "].id is required")
    else if goTrimSpace step.action = "" then
      some ("pipeline[" ++ toString i ++ "].action is required")
    else validateSteps rest (i + 1)

/-- CreateJobRequest.Validate (internal/domain, current revision): trimmed,
lowered source type restricted to the two supported values, object key
required for local_file, non-empty pipeline, non-blank step ids and
actions.  Returns the first violation, `none` when valid. -/
def Validate (r : CreateJobRequest) : Option String :=
  let sourceType := goToLower (goTrimSpace r.sourceType)
  if sourceType = "" then some "source_type is required"
  else if ¬ (sourceType = SourceTypeLocalFile ∨ sourceType = SourceTypeS3Presigned) then
    some ("unsupported source_type: " ++ r.sourceType)
  else if sourceType = SourceTypeLocalFile ∧ goTrimSpace r.objectKey = "" then
    some "object_key is required for source_type=local_file"
  else if r.pipeline = [] then some "pipeline must contain at least one step"
  else validateSteps r.pipeline 0

/-! ## Rate limiter (internal/ratelimit, RedisTokenBucket)

The Lua script runs atomically inside Redis; one script execution is a pure
function of the stored per-key state, the clock, and the parameters, and
returns the reply triple together with the state it writes back and the TTL
it sets.  Token counts are Lua numbers; we model them as exact rationals. -/

namespace RateLimit

/-- Per-key state held in the Redis hash: fractional token count and the
millisecond timestamp of the last refill. -/
structure BucketState where
  tokens : ℚ
  timestampMS : ℤ
deriving Repr, DecidableEq

/-- The triple the Lua script returns: allowed flag (1/0), floor of the
token count after the call, retry-after in milliseconds. -/
structure ScriptReply where
  allowed : Bool
  remaining : ℤ
  retryAfterMS : ℤ
deriving Repr, DecidableEq

/-- One atomic execution of the token-bucket Lua script.  `state = none`
models an absent key (both HMGET fields nil).  Returns the reply, the state
written back by HMSET, and the TTL applied by PEXPIRE. -/
def runTokenBucketScript (capacity refillPerMS : ℚ) (nowMS : ℤ) (requested : ℚ)
    (ttlMS : ℤ) (state : Option BucketState) : ScriptReply × BucketState × ℤ :=
  let tokens0 : ℚ := match state with | some st => st.tokens | none => capacity
  let timestamp : ℤ := match state with | some st => st.timestampMS | none => nowMS
  let elapsed : ℚ := max 0 ((nowMS : ℚ) - (timestamp : ℚ))
  let tokens1 : ℚ := min capacity (tokens0 + elapsed * refillPerMS)
  if requested ≤ tokens1 then
    (⟨true, ⌊tokens1 - requested⌋, 0⟩, ⟨tokens1 - requested, nowMS⟩, ttlMS)
  else
    (⟨false, ⌊tokens1⌋, ⌈(requested - tokens1) / refillPerMS⌉⟩, ⟨tokens1, nowMS⟩, ttlMS)

/-- The refilled token count the script computes before deciding. -/
def refilledTokens (capacity refillPerMS : ℚ) (nowMS : ℤ)
    (state : Option BucketState) : ℚ :=
  let tokens0 : ℚ := match state with | some st => st.tokens | none => capacity
  let timestamp : ℤ := match state with | some st => st.timestampMS | none => nowMS
  min capacity (tokens0 + max 0 ((nowMS : ℚ) - (timestamp : ℚ)) * refillPerMS)

/-- The limiter handle built by NewRedisTokenBucket. -/
structure RedisTokenBucket where
  capacity : ℤ
  refillPerMS : ℚ
  ttlMS : ℤ
  keyNS : String
deriving Repr, DecidableEq

/-- NewRedisTokenBucket: validates capacity and window (window given in
milliseconds, already ≥ 1 after Go's `windowMS < 1` clamp is applied to the
duration's millisecond count), derives the refill rate and a TTL of twice
the window. -/
def NewRedisTokenBucket (capacity : ℤ) (windowMS : ℤ) (keyNS : String) :
    Except String RedisTokenBucket :=
  if capacity ≤ 0 then .error "capacity must be positive"
  else if windowMS ≤ 0 then .error "window must be positive"
  else
    let ns := if goTrimSpace keyNS = "" then "pixelflow:ratelimit" else keyNS
    let wms := if windowMS < 1 then 1 else windowMS
    .ok ⟨capacity, (capacity : ℚ) / (wms : ℚ), 2 * windowMS, ns⟩

/-- The decision Allow returns to its caller. -/
structure Decision where
  allowed : Bool
  remaining : ℤ
  retryAfterMS : ℤ
deriving Repr, DecidableEq

/-- RedisTokenBucket.Allow: normalises the subject, runs the script with
`requested = 1` at the current clock, and repackages the reply.  Returns the
decision together with the key used, the state written and the TTL set. -/
def Allow (l : RedisTokenBucket) (subject : String) (nowMS : ℤ)
    (state : Option BucketState) : Decision × String × BucketState × ℤ :=
  let subj := if goTrimSpace subject = "" then "anonymous" else goTrimSpace subject
  let key := l.keyNS ++ ":" ++ subj
  let (reply, written, ttl) :=
    runTokenBucketScript (l.capacity : ℚ) l.refillPerMS nowMS 1 l.ttlMS state
  (⟨reply.allowed, reply.remaining, reply.retryAfterMS⟩, key, written, ttl)

/-- Repeated Allow calls for one subject, feeding each written state into
the next call; all calls share one clock reading (immediate succession). -/
def allowN (l : RedisTokenBucket) (subject : String) (nowMS : ℤ) :
    ℕ → Option BucketState → List Decision × Option BucketState
  | 0, st => ([], st)
  | n + 1, st =>
    let step := Allow l subject nowMS st
    let rest := allowN l subject nowMS n (some step.2.2.1)
    (step.1 :: rest.1, rest.2)

/-- The limiter of §8 scenario 6: capacity 60 tokens, window 60 s. -/
def bucket60 : RedisTokenBucket :=
  ⟨60, (60 : ℚ) / 60000, 2 * 60000, "pixelflow:ratelimit"⟩

end RateLimit

/-! ## Webhook emitter (internal/webhook, Client.Send)

The HTTP client, the wall clock and HMAC-SHA256 are external collaborators:
the per-attempt transport outcome and the context-cancellation schedule are
inputs, the clock is a function from sampling instants to Unix seconds
(`Send` samples it exactly once, at instant 0), and the MAC is an arbitrary
function of key and message.  `Send` returns the full observable trace: the
request each attempt carried, the sleeps performed, and the final result. -/

namespace Webhook

def nsPerSecond : ℤ := 1000000000

/-- webhook.Config. -/
structure Config where
  signingSecret : List ℕ
  timeoutNS : ℤ
  maxAttempts : ℤ
  initialBackoffNS : ℤ
  maxBackoffNS : ℤ
deriving Repr, DecidableEq

/-- webhook.Client. -/
structure Client where
  timeoutNS : ℤ
  signingSecret : List ℕ
  maxAttempts : ℤ
  initialBackoffNS : ℤ
  maxBackoffNS : ℤ
deriving Repr, DecidableEq

/-- webhook.NewClient: defaults timeout to 10 s, floors attempts at 1,
defaults the initial backoff to 1 s and raises the max backoff to at least
the initial backoff. -/
def NewClient (cfg : Config) : Client :=
  let timeout := if cfg.timeoutNS ≤ 0 then 10 * nsPerSecond else cfg.timeoutNS
  let maxAttempts := if cfg.maxAttempts < 1 then 1 else cfg.maxAttempts
  let initialBackoff :=
    if cfg.initialBackoffNS ≤ 0 then 1 * nsPerSecond else cfg.initialBackoffNS
  let maxBackoff :=
    if cfg.maxBackoffNS < initialBackoff then initialBackoff else cfg.maxBackoffNS
  ⟨timeout, cfg.signingSecret, maxAttempts, initialBackoff, maxBackoff⟩

/-- The WEBHOOK_* fallbacks of config.Load: timeout 10 s, 5 attempts,
initial backoff 1 s, max backoff 30 s. -/
def defaultWebhookConfig (secret : List ℕ) : Config :=
  ⟨secret, 10 * nsPerSecond, 5, 1 * nsPerSecond, 30 * nsPerSecond⟩

/-- UTF-8 bytes of an ASCII string. -/
def strBytes (s : String) : List ℕ :=
  s.data.map Char.toNat

/-- One lowercase hexadecimal digit. -/
def hexDigit (n : ℕ) : Char :=
  if n < 10 then Char.ofNat (48 + n) else Char.ofNat (87 + n)

/-- Lowercase hex encoding of a byte sequence (hex.EncodeToString). -/
def hexOfBytes (bs : List ℕ) : String :=
  ⟨bs.flatMap (fun b => [hexDigit (b / 16), hexDigit (b % 16)])⟩

/-- Client.sign writes the timestamp, a dot and the body into the MAC in
three increments and prefixes the hex digest with "sha256=". -/
def sign (c : Client) (mac : List ℕ → List ℕ → List ℕ)
    (timestamp : String) (body : List ℕ) : String :=
  let writes : List (List ℕ) := [strBytes timestamp, strBytes ".", body]
  "sha256=" ++ hexOfBytes (mac c.signingSecret (writes.foldl (· ++ ·) []))

/-- The outcome of one httpClient.Do call: a transport error and/or a
response (whose only relevant datum is the status code; `none` models a nil
response). -/
structure DoResult where
  err : Option String
  status : Option ℤ
deriving Repr, DecidableEq

/-- The success test on line `err == nil && resp != nil && 200 ≤ code < 300`. -/
def attemptSucceeds (d : DoResult) : Bool :=
  d.err = none && (match d.status with
    | some s => decide (200 ≤ s) && decide (s < 300)
    | none => false)

/-- classifyWebhookError. -/
def classifyWebhookError (d : DoResult) : String :=
  match d.err with
  | some e => e
  | none =>
    match d.status with
    | none => "webhook request failed: no response"
    | some s => "webhook returned status=" ++ toString s

def minDuration (a b : ℤ) : ℤ := if a < b then a else b

/-- The context as the retry loop observes it: whether ctx.Err() is non-nil
at the top of attempt `n`, and whether the sleep after attempt `n` is
interrupted by ctx.Done(). -/
structure Ctx where
  cancelledAtCheck : ℕ → Bool
  cancelledDuringSleep : ℕ → Bool

/-- The environment of one Send call: context schedule and the transport
outcome of each attempt (attempts are 1-indexed). -/
structure SendEnv where
  ctx : Ctx
  doResult : ℕ → DoResult

/-- The request one attempt sends: target and the four headers plus body. -/
structure AttemptRecord where
  endpoint : String
  contentType : String
  timestampHeader : String
  signatureHeader : String
  eventHeader : String
  body : List ℕ
deriving Repr, DecidableEq

/-- Everything observable about one Send call. -/
structure SendTrace where
  attempts : List AttemptRecord
  sleepsNS : List ℤ
  result : Except String Unit

/-- The retry loop of Client.Send.  `idx` is the 1-based attempt counter
(Go: `for attempt := 1; attempt <= maxAttempts; attempt++`), `fuel` the
number of loop iterations still possible (`maxAtt - idx + 1`); the
accumulator carries the requests sent and sleeps performed so far.  An
attempt that fails on the final iteration breaks out and reports the last
classified error; between attempts the loop sleeps the current backoff
unless the context is cancelled, then doubles it clamped at `maxB`. -/
def sendLoop (env : SendEnv) (req : AttemptRecord) (maxB : ℤ) (maxAtt : ℕ) :
    ℕ → ℕ → ℤ → List AttemptRecord × List ℤ → SendTrace
  | 0, _, _, acc =>
    ⟨acc.1, acc.2, .error ("webhook delivery failed after " ++
      toString maxAtt ++ " attempts")⟩
  | fuel + 1, idx, backoff, acc =>
    if env.ctx.cancelledAtCheck idx then ⟨acc.1, acc.2, .error "context canceled"⟩
    else
      let sent := acc.1 ++ [req]
      if attemptSucceeds (env.doResult idx) then ⟨sent, acc.2, .ok ()⟩
      else if idx = maxAtt then
        ⟨sent, acc.2, .error ("webhook delivery failed after " ++
          toString maxAtt ++ " attempts: " ++ classifyWebhookError (env.doResult idx))⟩
      else if env.ctx.cancelledDuringSleep idx then
        ⟨sent, acc.2, .error "context canceled"⟩
      else
        sendLoop env req maxB maxAtt fuel (idx + 1)
          (minDuration (backoff * 2) maxB) (sent, acc.2 ++ [backoff])

/-- Client.Send: un-configured endpoints are a silent no-op; the payload is
marshalled once; timestamp and signature are computed once, before the loop;
then the loop runs up to maxAttempts attempts. -/
def Send (c : Client) (mac : List ℕ → List ℕ → List ℕ) (nowUnixAt : ℕ → ℤ)
    (env : SendEnv) (endpoint event : String)
    (marshalled : Except String (List ℕ)) : SendTrace :=
  if goTrimSpace endpoint = "" then ⟨[], [], .ok ()⟩
  else
    match marshalled with
    | .error e => ⟨[], [], .error ("marshal webhook payload: " ++ e)⟩
    | .ok body =>
      let timestamp := toString (nowUnixAt 0)
      let signature := sign c mac timestamp body
      let req : AttemptRecord :=
        ⟨goTrimSpace endpoint, "application/json", timestamp, signature, event, body⟩
      sendLoop env req c.maxBackoffNS c.maxAttempts.toNat c.maxAttempts.toNat
        1 c.initialBackoffNS ([], [])

/-- The sleep sequence the loop performs: starts at the current backoff and
doubles after each attempt, clamped at the max backoff. -/
def backoffSeq (maxB : ℤ) : ℤ → ℕ → List ℤ
  | _, 0 => []
  | b, n + 1 => b :: backoffSeq maxB (minDuration (b * 2) maxB) n

end Webhook

/-! ## Image pipeline (internal/pipeline, Processor.Process)

The fetcher, transformer and emitter are the three capabilities a processor
composes; for Process we model them as the answers the environment returns.
Process yields the Go pair (Result, error) plus a trace of the collaborator
calls it made, in order. -/

namespace Pipeline

/-- pipeline.Request. -/
structure Request where
  jobID : String
  sourceType : String
  objectKey : String
  pipeline : List PipelineStep
deriving Repr, DecidableEq

/-- pipeline.Output. -/
structure Output where
  stepID : String
  action : String
  format : String
  path : String
  bytes : ℤ
  width : ℤ
  height : ℤ
  success : Bool
deriving Repr, DecidableEq

/-- pipeline.Result as defined in processor.go. -/
structure Result where
  outputs : List Output
deriving Repr, DecidableEq

/-- One observable collaborator call made by Process. -/
inductive TraceEvent
  | fetchCall
  | transformCall (input : List ℕ) (stepID : String)
  | emitCall (stepID : String)
deriving Repr, DecidableEq

/-- What the environment answers: the fetched source bytes, and per step the
transformer and emitter results. -/
structure ProcEnv where
  fetch : Except String (List ℕ)
  transform : List ℕ → PipelineStep → Except String (List ℕ × String × ℤ × ℤ)
  emit : Request → PipelineStep → List ℕ → String → ℤ → ℤ → Except String Output

/-- The transform-then-emit body of one loop iteration, with the error
wrapping Process applies. -/
def stepOutput (env : ProcEnv) (req : Request) (src : List ℕ)
    (step : PipelineStep) : Except String Output :=
  match env.transform src step with
  | .error e => .error ("transform stage step=" ++ step.id ++ " action=" ++
      step.action ++ ": " ++ e)
  | .ok (data, format, w, h) =>
    match env.emit req step data format w h with
    | .error e => .error ("emit stage step=" ++ step.id ++ " action=" ++
        step.action ++ ": " ++ e)
    | .ok written => .ok written

/-- The step loop of Process: sequential, aborting on the first failure with
an empty Result, sharing the one fetched buffer across steps. -/
def runSteps (env : ProcEnv) (req : Request) (src : List ℕ) :
    List PipelineStep → List Output → List TraceEvent →
      (Result × Option String) × List TraceEvent
  | [], acc, tr => ((⟨acc⟩, none), tr)
  | step :: rest, acc, tr =>
    let tr1 := tr ++ [.transformCall src step.id]
    match env.transform src step with
    | .error e =>
      ((⟨[]⟩, some ("transform stage step=" ++ step.id ++ " action=" ++
        step.action ++ ": " ++ e)), tr1)
    | .ok (data, format, w, h) =>
      let tr2 := tr1 ++ [.emitCall step.id]
      match env.emit req step data format w h with
      | .error e =>
        ((⟨[]⟩, some ("emit stage step=" ++ step.id ++ " action=" ++
          step.action ++ ": " ++ e)), tr2)
      | .ok written => runSteps env req src rest (acc ++ [written]) tr2

/-- Processor.Process: validates the request, fetches once, then runs the
steps in declaration order. -/
def Process (env : ProcEnv) (req : Request) :
    (Result × Option String) × List TraceEvent :=
  if goTrimSpace req.jobID = "" then ((⟨[]⟩, some "job_id is required"), [])
  else if req.pipeline = [] then
    ((⟨[]⟩, some "pipeline must contain at least one step"), [])
  else
    match env.fetch with
    | .error e => ((⟨[]⟩, some ("fetch stage: " ++ e)), [.fetchCall])
    | .ok src => runSteps env req src req.pipeline [] [.fetchCall]

/-- The per-step results when every step succeeds: `none` as soon as a
transform or emit fails. -/
def stepsOutputs (env : ProcEnv) (req : Request) (src : List ℕ) :
    List PipelineStep → Option (List Output)
  | [] => some []
  | step :: rest =>
    match stepOutput env req src step with
    | .error _ => none
    | .ok o => (stepsOutputs env req src rest).map (o :: ·)

/-- The collaborator calls of a fully successful run, in order. -/
def stepsTrace (src : List ℕ) (steps : List PipelineStep) : List TraceEvent :=
  steps.flatMap (fun step => [.transformCall src step.id, .emitCall step.id])

/-- The two-step request of the C8 witness. -/
def sampleProcReq : Request :=
  ⟨"job-8", "local_file", "/tmp/in.png",
    [⟨"a", "resize", 80, "jpeg", 75, none⟩,
      ⟨"b", "watermark", 0, "png", 0, some ⟨"PixelFlow", 3/4, "south"⟩⟩]⟩

/-- One fabricated emitted artifact per step id. -/
def sampleOutput (sid : String) : Output :=
  ⟨sid, "t", "png", "/out/" ++ sid, 3, 2, 2, true⟩

/-- A concrete environment whose transformer and emitter always succeed. -/
def sampleProcEnv : ProcEnv :=
  ⟨.ok [1, 2],
    fun _ _ => .ok ([9], "png", 2, 2),
    fun _ step _ _ _ _ => .ok (sampleOutput step.id)⟩

end Pipeline

/-! ## Transformer format selection (stdlibTransformer, the default build) -/

namespace Transform

/-- pipeline.normalizeOutputFormat. -/
def normalizeOutputFormat (format : String) : String :=
  if format = "jpg" then "jpeg"
  else if format = "jpeg" ∨ format = "png" ∨ format = "webp" then format
  else "png"

/-- The output-format choice of stdlibTransformer.Transform: normalise the
trimmed, lowered step format; an empty step format falls back to the
detected source format instead. -/
def chooseOutputFormat (stepFormat srcFormat : String) : String :=
  let f := normalizeOutputFormat (goToLower (goTrimSpace stepFormat))
  if goTrimSpace stepFormat = "" then normalizeOutputFormat (goToLower srcFormat)
  else f

/-- The jpeg quality encodeImage actually uses. -/
def effectiveJpegQuality (q : ℤ) : ℤ :=
  if q ≤ 0 ∨ q > 100 then 80 else q

/-- pipeline.encodeImage, reduced to its control flow: which formats encode,
which error, and which quality the jpeg encoder receives. -/
def encodeImage (format : String) (quality : ℤ) : Except String (Option ℤ) :=
  if format = "jpeg" then .ok (some (effectiveJpegQuality quality))
  else if format = "png" then .ok none
  else if format = "webp" then .error "webp export requires govips build tag"
  else .error ("unsupported output format: " ++ format)

/-- The format result of stdlibTransformer.Transform as a function of the
image.Decode outcome (`none` = undetectable/undecodable source) and the step
format. -/
def transformFormat (decoded : Option String) (stepFormat : String) :
    Except String String :=
  match decoded with
  | none => .error "decode source image"
  | some srcFormat => .ok (chooseOutputFormat stepFormat srcFormat)

end Transform

/-! ## Worker (internal/worker Server.handleProcessImage, recordUsage) and
the usage-log store (PostgresJobStore.CreateUsageLog) -/

namespace Worker

/-- queue.ProcessImagePayload. -/
structure Payload where
  jobID : String
  sourceType : String
  webhookURL : String
  objectKey : String
  pipeline : List PipelineStep
deriving Repr, DecidableEq

/-- Modelled from the spec: the phase-3 pipeline Result the worker consumes
adds a SourceBytes field to the Result of processor.go, "recorded as the
length of the fetched input for usage accounting"; that revision of
processor.go is not under src/. -/
structure PipelineResult where
  outputs : List Pipeline.Output
  sourceBytes : ℤ
deriving Repr, DecidableEq

/-- domain.UsageLog (created_at omitted: the store stamps it). -/
structure UsageLog where
  userID : String
  jobID : String
  pixelsProcessed : ℤ
  bytesSaved : ℤ
  computeTimeMS : ℤ
deriving Repr, DecidableEq

/-- The collaborator answers one delivery consumes. -/
structure WorkerEnv where
  parse : Except String Payload
  pipelineOutcome : Except String PipelineResult
  failedWebhook : Except String Unit
  completedWebhook : Except String Unit
  jobLookup : Except String (Option Job)

/-- What the handler returns to the queue. -/
inductive TaskReturn
  | ok
  | retriable (msg : String)
  | skipRetry (msg : String)
deriving Repr, DecidableEq

/-- The externally visible effects of one delivery: statuses written (in
order), webhook events attempted, usage rows written. -/
structure TaskEffects where
  statusWrites : List String
  webhookSends : List String
  usageWrites : List UsageLog
deriving Repr, DecidableEq

/-- Server.dispatchWebhook: a no-op without a webhook URL; otherwise one
Send whose failure is wrapped and propagated to the caller. -/
def dispatchWebhook (webhookURL : String) (event : String)
    (sendResult : Except String Unit) : Except String Unit × List String :=
  if webhookURL = "" then (.ok (), [])
  else
    match sendResult with
    | .error e => (.error ("dispatch webhook: " ++ e), [event])
    | .ok () => (.ok (), [event])

/-- Server.recordUsage: user id re-read from the job row (default
anonymous), pixels summed over outputs, bytes saved clamped at 0, compute
time in truncated milliseconds floored at 1. -/
def recordUsage (jobLookup : Except String (Option Job)) (jobID : String)
    (result : PipelineResult) (computeDurationNS : ℕ) : UsageLog :=
  let userID :=
    match jobLookup with
    | .error _ => "anonymous"
    | .ok none => "anonymous"
    | .ok (some job) =>
      if goTrimSpace job.userID = "" then "anonymous" else job.userID
  let pixels := (result.outputs.map (fun o => o.width * o.height)).sum
  let totalOutputBytes := (result.outputs.map (fun o => o.bytes)).sum
  let bytesSaved0 := result.sourceBytes - totalOutputBytes
  let bytesSaved := if bytesSaved0 < 0 then 0 else bytesSaved0
  let ms := ((computeDurationNS / 1000000 : ℕ) : ℤ)
  let computeTimeMS := if ms < 1 then 1 else ms
  ⟨userID, jobID, pixels, bytesSaved, computeTimeMS⟩

/-- Server.handleProcessImage, as a function of the collaborator answers
and the handler wall time. -/
def handleProcessImage (env : WorkerEnv) (durationNS : ℕ) :
    TaskReturn × TaskEffects :=
  match env.parse with
  | .error e => (.skipRetry ("parse payload: " ++ e), ⟨[], [], []⟩)
  | .ok payload =>
    match env.pipelineOutcome with
    | .error e =>
      let d := dispatchWebhook payload.webhookURL "job.failed" env.failedWebhook
      (.retriable ("run pipeline: " ++ e),
        ⟨[JobStatusProcessing, JobStatusFailed], d.2, []⟩)
    | .ok result =>
      let usage := recordUsage env.jobLookup payload.jobID result durationNS
      let d := dispatchWebhook payload.webhookURL "job.completed" env.completedWebhook
      match d.1 with
      | .error e =>
        (.retriable e, ⟨[JobStatusProcessing, JobStatusSucceeded], d.2, [usage]⟩)
      | .ok () =>
        (.ok, ⟨[JobStatusProcessing, JobStatusSucceeded], d.2, [usage]⟩)

/-- PostgresJobStore.CreateUsageLog: INSERT … ON CONFLICT (job_id) DO
UPDATE, over a table whose rows are keyed by job_id. -/
def CreateUsageLog (table : List UsageLog) (usage : UsageLog) : List UsageLog :=
  if table.any (fun row => row.jobID = usage.jobID) then
    table.map (fun row => if row.jobID = usage.jobID then usage else row)
  else table ++ [usage]

/-- The single-output result of §8 scenario 4 (source 100 bytes, one 5×5
output of 200 bytes). -/
def usageClampResult : PipelineResult :=
  ⟨[⟨"s", "resize", "png", "/out/s", 200, 5, 5, true⟩], 100⟩

/-- A parsed payload with a webhook configured. -/
def samplePayload : Payload :=
  ⟨"job-9", "local_file", "http://cb", "/tmp/in.png",
    [⟨"thumb", "resize", 80, "", 0, none⟩]⟩

end Worker

/-! ## Control plane: POST /v1/jobs/{id}/start (internal/api Server) -/

namespace Api

/-- asynq.TaskInfo, reduced to the fields the response echoes. -/
structure TaskInfo where
  id : String
  queue : String
  state : String
deriving Repr, DecidableEq

/-- The answer os.Stat gives for a local source path. -/
inductive StatResult
  | statOk
  | notExist
  | otherError (msg : String)
deriving Repr, DecidableEq

/-- External answers consumed by one handleStartJob request. -/
structure StartEnv where
  getJob : Except String (Option Job)
  localStat : StatResult
  blobExists : Except String Bool
  enqueue : Except String TaskInfo
  updateStatus : Except String Unit

/-- An HTTP response as writeJSON produces it: the status code and, for
error responses, the error message. -/
structure Response where
  status : ℕ
  errorMsg : Option String
deriving Repr, DecidableEq

/-- Server.verifySourceExists: filesystem stat for local_file, blob stat
otherwise; `none` means the source is present. -/
def verifySourceExists (env : StartEnv) (job : Job) : Option String :=
  if job.sourceType = SourceTypeLocalFile then
    match env.localStat with
    | .statOk => none
    | .notExist => some ("source object is missing: " ++ job.objectKey)
    | .otherError m => some ("source object check failed: " ++ m)
  else
    match env.blobExists with
    | .error m => some ("source object check failed: " ++ m)
    | .ok false => some ("source object is missing: " ++ job.objectKey)
    | .ok true => none

/-- Server.handleStartJob from the parsed job id on.  Returns the response
and whether an enqueue was submitted to the queue client. -/
def handleStartJob (env : StartEnv) : Response × Bool :=
  match env.getJob with
  | .error _ => (⟨500, some "failed to load job"⟩, false)
  | .ok none => (⟨404, some "job not found"⟩, false)
  | .ok (some job) =>
    match verifySourceExists env job with
    | some msg => (⟨409, some msg⟩, false)
    | none =>
      match env.enqueue with
      | .error _ => (⟨500, some "failed to enqueue job"⟩, true)
      | .ok _ => (⟨202, none⟩, true)

/-! ### Strict JSON decoding (decodeJSON)

decodeJSON reads at most 1 MiB of the request body (io.LimitReader), then
requires exactly one JSON document that unmarshals into CreateJobRequest
with unknown fields rejected (DisallowUnknownFields) and nothing but the
one document in the capped stream.  The tokenizer is a character fold; the
parser consumes the token list. -/

def isDigit (c : Char) : Bool := '0' ≤ c ∧ c ≤ '9'

def isHexDigit (c : Char) : Bool :=
  isDigit c ∨ ('a' ≤ c ∧ c ≤ 'f') ∨ ('A' ≤ c ∧ c ≤ 'F')

def hexVal (c : Char) : ℕ :=
  if isDigit c then c.toNat - 48
  else if 'a' ≤ c ∧ c ≤ 'f' then c.toNat - 87
  else c.toNat - 55

def isAlpha (c : Char) : Bool := 'a' ≤ c ∧ c ≤ 'z'

def isNumChar (c : Char) : Bool :=
  isDigit c ∨ c = '-' ∨ c = '+' ∨ c = '.' ∨ c = 'e' ∨ c = 'E'

def lbraceChar : Char := Char.ofNat 123
def rbraceChar : Char := Char.ofNat 125

/-- One JSON token. -/
inductive JToken
  | lbrace | rbrace | lbrack | rbrack | colon | comma
  | str (s : String)
  | num (raw : String)
  | tru | fls | nul
deriving Repr, DecidableEq

/-- Tokenizer mode: between tokens, inside a string (plain, after a
backslash, or inside a unicode escape), inside a keyword, or inside a
number. -/
inductive LexMode
  | top
  | inStr (acc : List Char)
  | inStrEsc (acc : List Char)
  | inStrHex (acc : List Char) (need : ℕ) (val : ℕ)
  | inWord (acc : List Char)
  | inNum (acc : List Char)
deriving Repr, DecidableEq

structure LexState where
  tokens : List JToken
  mode : LexMode
  err : Bool
deriving Repr, DecidableEq

def dropDigits : List Char → List Char
  | [] => []
  | c :: r => if isDigit c then dropDigits r else c :: r

def checkFrac : List Char → Option (List Char)
  | '.' :: c :: r => if isDigit c then some (dropDigits (c :: r)) else none
  | '.' :: [] => none
  | cs => some cs

def checkExpDigits : List Char → Option (List Char)
  | c :: r => if isDigit c then some (dropDigits (c :: r)) else none
  | [] => none

def checkExpSign : List Char → Option (List Char)
  | '+' :: r => checkExpDigits r
  | '-' :: r => checkExpDigits r
  | r => checkExpDigits r

def checkExp : List Char → Option (List Char)
  | 'e' :: r => checkExpSign r
  | 'E' :: r => checkExpSign r
  | cs => some cs

/-- JSON number grammar: -?(0|[1-9][0-9]*)(.[0-9]+)?([eE][+-]?[0-9]+)?. -/
def validNum (cs : List Char) : Bool :=
  let cs1 := match cs with
    | c :: r => if c = '-' then r else cs
    | [] => []
  let intRes : Option (List Char) :=
    match cs1 with
    | c :: r => if c = '0' then some r else if isDigit c then some (dropDigits r) else none
    | [] => none
  match intRes with
  | none => false
  | some r1 =>
    match checkFrac r1 with
    | none => false
    | some r2 =>
      match checkExp r2 with
      | none => false
      | some r3 => r3 = []

def finishWord (acc : List Char) : Option JToken :=
  if acc = ['t', 'r', 'u', 'e'] then some .tru
  else if acc = ['f', 'a', 'l', 's', 'e'] then some .fls
  else if acc = ['n', 'u', 'l', 'l'] then some .nul
  else none

def escMap (c : Char) : Option Char :=
  if c = '"' then some '"'
  else if c = '\\' then some '\\'
  else if c = '/' then some '/'
  else if c = 'b' then some (Char.ofNat 8)
  else if c = 'f' then some (Char.ofNat 12)
  else if c = 'n' then some '\n'
  else if c = 'r' then some '\r'
  else if c = 't' then some '\t'
  else none

/-- Dispatch on a character seen between tokens. -/
def topStep (toks : List JToken) (c : Char) : LexState :=
  if goIsSpace c then ⟨toks, .top, false⟩
  else if c = lbraceChar then ⟨toks ++ [.lbrace], .top, false⟩
  else if c = rbraceChar then ⟨toks ++ [.rbrace], .top, false⟩
  else if c = '[' then ⟨toks ++ [.lbrack], .top, false⟩
  else if c = ']' then ⟨toks ++ [.rbrack], .top, false⟩
  else if c = ':' then ⟨toks ++ [.colon], .top, false⟩
  else if c = ',' then ⟨toks ++ [.comma], .top, false⟩
  else if c = '"' then ⟨toks, .inStr [], false⟩
  else if isAlpha c then ⟨toks, .inWord [c], false⟩
  else if isDigit c ∨ c = '-' then ⟨toks, .inNum [c], false⟩
  else ⟨toks, .top, true⟩

/-- One character of tokenization. -/
def lexStep (st : LexState) (c : Char) : LexState :=
  if st.err then st
  else
    match st.mode with
    | .top => topStep st.tokens c
    | .inStr acc =>
      if c = '"' then ⟨st.tokens ++ [.str ⟨acc⟩], .top, false⟩
      else if c = '\\' then ⟨st.tokens, .inStrEsc acc, false⟩
      else if c.toNat < 32 then ⟨st.tokens, .inStr acc, true⟩
      else ⟨st.tokens, .inStr (acc ++ [c]), false⟩
    | .inStrEsc acc =>
      if c = 'u' then ⟨st.tokens, .inStrHex acc 4 0, false⟩
      else
        match escMap c with
        | some d => ⟨st.tokens, .inStr (acc ++ [d]), false⟩
        | none => ⟨st.tokens, .inStrEsc acc, true⟩
    | .inStrHex acc need val =>
      if isHexDigit c then
        if need = 1 then
          ⟨st.tokens, .inStr (acc ++ [Char.ofNat (val * 16 + hexVal c)]), false⟩
        else ⟨st.tokens, .inStrHex acc (need - 1) (val * 16 + hexVal c), false⟩
      else ⟨st.tokens, .inStrHex acc need val, true⟩
    | .inWord acc =>
      if isAlpha c then ⟨st.tokens, .inWord (acc ++ [c]), false⟩
      else
        match finishWord acc with
        | none => ⟨st.tokens, .top, true⟩
        | some tok => topStep (st.tokens ++ [tok]) c
    | .inNum acc =>
      if isNumChar c then ⟨st.tokens, .inNum (acc ++ [c]), false⟩
      else if validNum acc then topStep (st.tokens ++ [.num ⟨acc⟩]) c
      else ⟨st.tokens, .top, true⟩

/-- Close the tokenizer at end of (capped) input; a dangling string or a
malformed trailing token is an error (in Go: unexpected EOF / syntax
error from the truncated stream). -/
def lexFinish (st : LexState) : Option (List JToken) :=
  if st.err then none
  else
    match st.mode with
    | .top => some st.tokens
    | .inWord acc => (finishWord acc).map (fun t => st.tokens ++ [t])
    | .inNum acc => if validNum acc then some (st.tokens ++ [.num ⟨acc⟩]) else none
    | _ => none

def lexChars (cs : List Char) : Option (List JToken) :=
  lexFinish (cs.foldl lexStep ⟨[], .top, false⟩)

/-- A parsed JSON value; numbers keep their literal. -/
inductive Json
  | null
  | bool (b : Bool)
  | num (raw : String)
  | str (s : String)
  | arr (elements : List Json)
  | obj (fields : List (String × Json))

mutual

/-- Parse one value from the token stream. -/
def parseValue : ℕ → List JToken → Option (Json × List JToken)
  | 0, _ => none
  | _ + 1, [] => none
  | fuel + 1, t :: rest =>
    match t with
    | .nul => some (.null, rest)
    | .tru => some (.bool true, rest)
    | .fls => some (.bool false, rest)
    | .num raw => some (.num raw, rest)
    | .str s => some (.str s, rest)
    | .lbrack =>
      match rest with
      | .rbrack :: rest' => some (.arr [], rest')
      | _ => parseElems fuel rest []
    | .lbrace =>
      match rest with
      | .rbrace :: rest' => some (.obj [], rest')
      | _ => parseFields fuel rest []
    | _ => none

/-- Parse the remaining comma-separated elements of a non-empty array. -/
def parseElems : ℕ → List JToken → List Json → Option (Json × List JToken)
  | 0, _, _ => none
  | fuel + 1, toks, acc =>
    match parseValue fuel toks with
    | none => none
    | some (v, rest) =>
      match rest with
      | .comma :: rest' => parseElems fuel rest' (acc ++ [v])
      | .rbrack :: rest' => some (.arr (acc ++ [v]), rest')
      | _ => none

/-- Parse the remaining members of a non-empty object. -/
def parseFields : ℕ → List JToken → List (String × Json) →
    Option (Json × List JToken)
  | 0, _, _ => none
  | fuel + 1, .str k :: .colon :: rest, acc =>
    match parseValue fuel rest with
    | none => none
    | some (v, rest') =>
      match rest' with
      | .comma :: rest'' => parseFields fuel rest'' (acc ++ [(k, v)])
      | .rbrace :: rest'' => some (.obj (acc ++ [(k, v)]), rest'')
      | _ => none
  | _ + 1, _, _ => none

end

/-- strconv.ParseInt-style integer literal: optional sign, digits only. -/
def digitsToNatAux : List Char → ℕ → Option ℕ
  | [], acc => some acc
  | c :: r, acc =>
    if isDigit c then digitsToNatAux r (acc * 10 + (c.toNat - 48)) else none

def digitsToNat : List Char → Option ℕ
  | [] => none
  | cs => digitsToNatAux cs 0

def parseGoInt (raw : String) : Option ℤ :=
  match raw.data with
  | '-' :: r => (digitsToNat r).map (fun n => -(n : ℤ))
  | r => (digitsToNat r).map (fun n => (n : ℤ))

/-- The exact rational a JSON number literal denotes. -/
def numToRat (raw : String) : Option ℚ :=
  let cs := raw.data
  let (neg, cs1) :=
    match cs with
    | '-' :: r => (true, r)
    | r => (false, r)
  let intDigits := cs1.takeWhile isDigit
  let r1 := cs1.dropWhile isDigit
  if intDigits = [] then none
  else
    let (fracDigits, r2) :=
      match r1 with
      | '.' :: rest => (rest.takeWhile isDigit, rest.dropWhile isDigit)
      | _ => ([], r1)
    let expPart : Option ℤ :=
      match r2 with
      | [] => some 0
      | e :: rest =>
        if e = 'e' ∨ e = 'E' then
          let (eneg, rest') :=
            match rest with
            | '-' :: rr => (true, rr)
            | '+' :: rr => (false, rr)
            | rr => (false, rr)
          match digitsToNat (rest'.takeWhile isDigit) with
          | some n =>
            if rest'.dropWhile isDigit = [] then
              some (if eneg then -(n : ℤ) else (n : ℤ))
            else none
          | none => none
        else none
    match expPart with
    | none => none
    | some e =>
      match digitsToNat (intDigits ++ fracDigits) with
      | none => none
      | some m =>
        let q : ℚ := (m : ℚ) * (10 : ℚ) ^ (e - (fracDigits.length : ℤ))
        some (if neg then -q else q)

/-- strings.EqualFold on ASCII, as encoding/json matches field names. -/
def foldEq (a b : String) : Bool := goToLower a = goToLower b

/-- Fold an object's members into a struct value, erroring on the first bad
member (unknown field or type mismatch); later duplicates overwrite. -/
def foldFields {α : Type} (assign : α → String → Json → Except String α)
    (init : α) : List (String × Json) → Except String α
  | [] => .ok init
  | (k, v) :: rest =>
    match assign init k v with
    | .error e => .error e
    | .ok a => foldFields assign a rest

def assignWmField (w : Watermark) (k : String) (v : Json) :
    Except String Watermark :=
  if foldEq k "text" then
    match v with
    | .null => .ok w
    | .str s => .ok ⟨s, w.opacity, w.gravity⟩
    | _ => .error "cannot unmarshal watermark.text"
  else if foldEq k "opacity" then
    match v with
    | .null => .ok w
    | .num raw =>
      match numToRat raw with
      | some q => .ok ⟨w.text, q, w.gravity⟩
      | none => .error "cannot unmarshal watermark.opacity"
    | _ => .error "cannot unmarshal watermark.opacity"
  else if foldEq k "gravity" then
    match v with
    | .null => .ok w
    | .str s => .ok ⟨w.text, w.opacity, s⟩
    | _ => .error "cannot unmarshal watermark.gravity"
  else .error ("unknown field " ++ k)

def jsonToWatermark (v : Json) : Except String (Option Watermark) :=
  match v with
  | .null => .ok none
  | .obj fields => (foldFields assignWmField ⟨"", 0, ""⟩ fields).map some
  | _ => .error "cannot unmarshal watermark"

def assignStepField (p : PipelineStep) (k : String) (v : Json) :
    Except String PipelineStep :=
  if foldEq k "id" then
    match v with
    | .null => .ok p
    | .str s => .ok ⟨s, p.action, p.width, p.format, p.quality, p.watermark⟩
    | _ => .error "cannot unmarshal step.id"
  else if foldEq k "action" then
    match v with
    | .null => .ok p
    | .str s => .ok ⟨p.id, s, p.width, p.format, p.quality, p.watermark⟩
    | _ => .error "cannot unmarshal step.action"
  else if foldEq k "width" then
    match v with
    | .null => .ok p
    | .num raw =>
      match parseGoInt raw with
      | some n => .ok ⟨p.id, p.action, n, p.format, p.quality, p.watermark⟩
      | none => .error "cannot unmarshal step.width"
    | _ => .error "cannot unmarshal step.width"
  else if foldEq k "format" then
    match v with
    | .null => .ok p
    | .str s => .ok ⟨p.id, p.action, p.width, s, p.quality, p.watermark⟩
    | _ => .error "cannot unmarshal step.format"
  else if foldEq k "quality" then
    match v with
    | .null => .ok p
    | .num raw =>
      match parseGoInt raw with
      | some n => .ok ⟨p.id, p.action, p.width, p.format, n, p.watermark⟩
      | none => .error "cannot unmarshal step.quality"
    | _ => .error "cannot unmarshal step.quality"
  else if foldEq k "watermark" then
    match jsonToWatermark v with
    | .error e => .error e
    | .ok wm => .ok ⟨p.id, p.action, p.width, p.format, p.quality, wm⟩
  else .error ("unknown field " ++ k)

def jsonToStep (v : Json) : Except String PipelineStep :=
  match v with
  | .null => .ok ⟨"", "", 0, "", 0, none⟩
  | .obj fields => foldFields assignStepField ⟨"", "", 0, "", 0, none⟩ fields
  | _ => .error "cannot unmarshal pipeline step"

def jsonToSteps : List Json → Except String (List PipelineStep)
  | [] => .ok []
  | v :: rest =>
    match jsonToStep v with
    | .error e => .error e
    | .ok p =>
      match jsonToSteps rest with
      | .error e => .error e
      | .ok ps => .ok (p :: ps)

def assignReqField (r : CreateJobRequest) (k : String) (v : Json) :
    Except String CreateJobRequest :=
  if foldEq k "source_type" then
    match v with
    | .null => .ok r
    | .str s => .ok ⟨s, r.webhookURL, r.objectKey, r.pipeline⟩
    | _ => .error "cannot unmarshal source_type"
  else if foldEq k "webhook_url" then
    match v with
    | .null => .ok r
    | .str s => .ok ⟨r.sourceType, s, r.objectKey, r.pipeline⟩
    | _ => .error "cannot unmarshal webhook_url"
  else if foldEq k "object_key" then
    match v with
    | .null => .ok r
    | .str s => .ok ⟨r.sourceType, r.webhookURL, s, r.pipeline⟩
    | _ => .error "cannot unmarshal object_key"
  else if foldEq k "pipeline" then
    match v with
    | .null => .ok r
    | .arr xs =>
      match jsonToSteps xs with
      | .error e => .error e
      | .ok ps => .ok ⟨r.sourceType, r.webhookURL, r.objectKey, ps⟩
    | _ => .error "cannot unmarshal pipeline"
  else .error ("unknown field " ++ k)

def jsonToCreateJobRequest (v : Json) : Except String CreateJobRequest :=
  match v with
  | .null => .ok ⟨"", "", "", []⟩
  | .obj fields => foldFields assignReqField ⟨"", "", "", []⟩ fields
  | _ => .error "cannot unmarshal request body"

/-- The 1 MiB body cap of decodeJSON (1 << 20). -/
def maxBodyBytes : ℕ := 1048576

/-- api.decodeJSON: cap the body at 1 MiB, tokenize and parse one document,
unmarshal it strictly, and require nothing but that document before the
capped stream ends. -/
def decodeJSON (body : List Char) : Except String CreateJobRequest :=
  match lexChars (body.take maxBodyBytes) with
  | none => .error "invalid JSON body"
  | some tokens =>
    match parseValue (tokens.length + 1) tokens with
    | none => .error "invalid JSON body"
    | some (v, rest) =>
      match jsonToCreateJobRequest v with
      | .error e => .error ("invalid JSON body: " ++ e)
      | .ok req =>
        if rest = [] then .ok req
        else .error "invalid JSON body: multiple JSON values are not allowed"

def isErr {α : Type} : Except String α → Bool
  | .error _ => true
  | .ok _ => false

/-- The collaborator answers handleCreateJob consumes. -/
structure CreateEnv where
  presign : Except String String
  storeCreate : Except String Unit

/-- Server.handleCreateJob, reduced to the response status: 400 on decode
or validation failure, 500 on presign (s3_presigned only) or store-create
failure, 202 otherwise. -/
def handleCreateJob (env : CreateEnv) (body : List Char) : ℕ :=
  match decodeJSON body with
  | .error _ => 400
  | .ok req =>
    match Validate req with
    | some _ => 400
    | none =>
      let sourceType := goToLower (goTrimSpace req.sourceType)
      if sourceType = SourceTypeS3Presigned then
        match env.presign with
        | .error _ => 500
        | .ok _ =>
          match env.storeCreate with
          | .error _ => 500
          | .ok _ => 202
      else
        match env.storeCreate with
        | .error _ => 500
        | .ok _ => 202

/-- The C6 counterexample body: one complete 98-byte document, whitespace
padding up to exactly the 1 MiB cap, and one byte beyond it. -/
def jsonDocChars : List Char :=
  ("\x7b\"source_type\":\"local_file\",\"object_key\":\"k\",\"pipeline\":[\x7b\"id\":\"a\",\"action\":\"resize\",\"width\":10\x7d]\x7d").data

def padCount : ℕ := maxBodyBytes - 98

def bigBody : List Char :=
  (jsonDocChars ++ List.replicate padCount ' ') ++ [Char.ofNat 120]

/-- What the counterexample document decodes to. -/
def bigBodyReq : CreateJobRequest :=
  ⟨"local_file", "", "k", [⟨"a", "resize", 10, "", 0, none⟩]⟩

/-- A create request environment whose presign and store succeed. -/
def goodCreateEnv : CreateEnv := ⟨.ok "http://upload", .ok ()⟩

/-- A body with an unknown top-level field. -/
def unknownFieldBody : List Char := ("\x7b\"source_type\":\"x\",\"bogus\":1\x7d").data

/-- A body holding two top-level documents. -/
def multiDocBody : List Char := ("\x7b\x7d \x7b\x7d").data

/-- The local_file job used by the C1 witness. -/
def localMissingJob : Job :=
  ⟨"job-2", "anonymous", "created", "local_file", "",
    [⟨"thumb", "resize", 100, "", 0, none⟩], "/tmp/in.png"⟩

/-- A start request whose job row is present (s3_presigned) but whose blob
existence check fails with an I/O error rather than reporting absence. -/
def blobErrorStartEnv : StartEnv :=
  ⟨.ok (some ⟨"job-1", "anonymous", "created", "s3_presigned", "",
    [⟨"thumb", "resize", 100, "", 0, none⟩], "uploads/job-1/source"⟩),
    .statOk, .error "connection refused", .ok ⟨"task-1", "default", "active"⟩, .ok ()⟩

/-- A start request for a local_file job whose file does not exist. -/
def localMissingStartEnv : StartEnv :=
  ⟨.ok (some localMissingJob), .notExist, .ok true,
    .ok ⟨"task-2", "default", "active"⟩, .ok ()⟩

end Api

/-! ## Proofs -/

namespace RateLimit

lemma newBucket60 :
    NewRedisTokenBucket 60 60000 "pixelflow:ratelimit" = .ok bucket60 := by
  have hns : goTrimSpace "pixelflow:ratelimit" = "pixelflow:ratelimit" := rfl
  simp [NewRedisTokenBucket, hns, bucket60]

/-- A script run whose stored timestamp equals the clock refills nothing. -/
lemma script_elapsed_zero (c r req : ℚ) (now : ℤ) (ttl : ℤ) (t : ℚ) :
    runTokenBucketScript c r now req ttl (some ⟨t, now⟩) =
      if req ≤ min c t then
        (⟨true, ⌊min c t - req⌋, 0⟩, ⟨min c t - req, now⟩, ttl)
      else
        (⟨false, ⌊min c t⌋, ⌈(req - min c t) / r⌉⟩, ⟨min c t, now⟩, ttl) := by
  simp [runTokenBucketScript]

lemma allow_unfold (l : RedisTokenBucket) (subject : String) (nowMS : ℤ)
    (state : Option BucketState) :
    Allow l subject nowMS state =
      (let subj := if goTrimSpace subject = "" then "anonymous" else goTrimSpace subject
       let key := l.keyNS ++ ":" ++ subj
       let r := runTokenBucketScript (l.capacity : ℚ) l.refillPerMS nowMS 1 l.ttlMS state
       (⟨r.1.allowed, r.1.remaining, r.1.retryAfterMS⟩, key, r.2.1, r.2.2)) := rfl

lemma bucket60_fields : bucket60.capacity = 60 ∧ bucket60.refillPerMS = (60 : ℚ) / 60000 ∧
    bucket60.ttlMS = 2 * 60000 ∧ bucket60.keyNS = "pixelflow:ratelimit" :=
  ⟨rfl, rfl, rfl, rfl⟩

/-- One allowed call of the scenario limiter from an integer token count. -/
lemma allow_step_int (t : ℤ) (h1 : 1 ≤ t) (h60 : t ≤ 60) (now : ℤ) :
    Allow bucket60 "alice" now (some ⟨(t : ℚ), now⟩) =
      (⟨true, t - 1, 0⟩, "pixelflow:ratelimit:alice",
        ⟨((t - 1 : ℤ) : ℚ), now⟩, 2 * 60000) := by
  have hmin : min ((60 : ℤ) : ℚ) (t : ℚ) = (t : ℚ) := by
    apply min_eq_right
    exact_mod_cast h60
  have hreq : (1 : ℚ) ≤ (t : ℚ) := by exact_mod_cast h1
  have htrim : goTrimSpace "alice" = "alice" := rfl
  have hne : ¬ (goTrimSpace "alice" = "") := by rw [htrim]; decide
  rw [allow_unfold]
  simp only [bucket60_fields.1, bucket60_fields.2.1, bucket60_fields.2.2.1,
    bucket60_fields.2.2.2, if_neg hne, htrim, script_elapsed_zero]
  rw [hmin, if_pos hreq]
  refine Prod.ext ?_ (Prod.ext rfl (Prod.ext ?_ rfl))
  · show (⟨true, ⌊(t : ℚ) - 1⌋, 0⟩ : Decision) = ⟨true, t - 1, 0⟩
    have h : ((t : ℚ) - 1) = ((t - 1 : ℤ) : ℚ) := by push_cast; ring
    rw [h, Int.floor_intCast]
  · show (⟨(t : ℚ) - 1, now⟩ : BucketState) = ⟨((t - 1 : ℤ) : ℚ), now⟩
    have h : ((t : ℚ) - 1) = ((t - 1 : ℤ) : ℚ) := by push_cast; ring
    rw [h]

/-- The denied call of the scenario limiter at zero tokens. -/
lemma allow_step_zero (now : ℤ) :
    Allow bucket60 "alice" now (some ⟨0, now⟩) =
      (⟨false, 0, 1000⟩, "pixelflow:ratelimit:alice", ⟨0, now⟩, 2 * 60000) := by
  have htrim : goTrimSpace "alice" = "alice" := rfl
  have hne : ¬ (goTrimSpace "alice" = "") := by rw [htrim]; decide
  have hmin : min ((60 : ℤ) : ℚ) (0 : ℚ) = 0 := by norm_num
  have hreq : ¬ ((1 : ℚ) ≤ 0) := by norm_num
  rw [allow_unfold]
  simp only [bucket60_fields.1, bucket60_fields.2.1, bucket60_fields.2.2.1,
    bucket60_fields.2.2.2, if_neg hne, htrim, script_elapsed_zero]
  rw [hmin, if_neg hreq]
  refine Prod.ext ?_ (Prod.ext rfl (Prod.ext ?_ rfl))
  · show (⟨false, ⌊(0 : ℚ)⌋, ⌈((1 : ℚ) - 0) / ((60 : ℚ) / 60000)⌉⟩ : Decision) =
      ⟨false, 0, 1000⟩
    have hdiv : ((1 : ℚ) - 0) / ((60 : ℚ) / 60000) = ((1000 : ℤ) : ℚ) := by norm_num
    rw [hdiv, Int.ceil_intCast]
    norm_num
  · rfl

/-- Natural-number form of the allowed step. -/
lemma allow_step_nat (t : ℕ) (h1 : 1 ≤ t) (h60 : t ≤ 60) (now : ℤ) :
    Allow bucket60 "alice" now (some ⟨(t : ℚ), now⟩) =
      (⟨true, (t : ℤ) - 1, 0⟩, "pixelflow:ratelimit:alice",
        ⟨((t - 1 : ℕ) : ℚ), now⟩, 2 * 60000) := by
  have h1' : (1 : ℤ) ≤ (t : ℤ) := by exact_mod_cast h1
  have h60' : (t : ℤ) ≤ 60 := by exact_mod_cast h60
  have hstep := allow_step_int (t : ℤ) h1' h60' now
  have hc1 : (((t : ℤ)) : ℚ) = ((t : ℕ) : ℚ) := by push_cast; ring
  have hc2 : (((t : ℤ) - 1 : ℤ) : ℚ) = ((t - 1 : ℕ) : ℚ) := by
    push_cast [Nat.cast_sub h1]
    ring
  rw [hc1, hc2] at hstep
  exact hstep

/-- Immediate calls drain one token each: `k ≤ t ≤ 60` calls down from an
integer token count `t` are all allowed, with remaining `t-1, …, t-k`. -/
lemma allowN_down (now : ℤ) :
    ∀ (k t : ℕ), k ≤ t → t ≤ 60 →
      allowN bucket60 "alice" now k (some ⟨(t : ℚ), now⟩) =
        ((List.range k).map (fun i => ⟨true, (t : ℤ) - 1 - (i : ℤ), 0⟩),
          some ⟨((t - k : ℕ) : ℚ), now⟩)
  | 0, t, _, _ => by simp [allowN]
  | k + 1, t, hk, h60 => by
    have h1 : 1 ≤ t := by omega
    have hstep := allow_step_nat t h1 h60 now
    have hrec := allowN_down now k (t - 1) (by omega) (by omega)
    rw [allowN, hstep]
    simp only []
    rw [hrec]
    simp only [Prod.mk.injEq]
    constructor
    · rw [List.range_succ_eq_map, List.map_cons, List.map_map]
      simp only [List.cons.injEq]
      refine ⟨by simp, ?_⟩
      apply List.map_congr_left
      intro i _
      simp only [Function.comp_apply, Decision.mk.injEq, true_and, and_true]
      push_cast [Nat.cast_sub h1]
      ring
    · have h : t - 1 - k = t - (k + 1) := by omega
      rw [h]
  termination_by k => k

/-- A script run on a missing key behaves as one on a full bucket stamped
with the current clock. -/
lemma script_none (c r req : ℚ) (now ttl : ℤ) :
    runTokenBucketScript c r now req ttl none =
      runTokenBucketScript c r now req ttl (some ⟨c, now⟩) := rfl

lemma allow_none60 (now : ℤ) :
    Allow bucket60 "alice" now none =
      Allow bucket60 "alice" now (some ⟨((60 : ℕ) : ℚ), now⟩) := by
  rw [allow_unfold, allow_unfold, script_none]
  norm_num [bucket60]

/-- Splitting a run of immediate calls. -/
lemma allowN_append (l : RedisTokenBucket) (s : String) (now : ℤ) :
    ∀ (m n : ℕ) (st : Option BucketState),
      allowN l s now (m + n) st =
        ((allowN l s now m st).1 ++ (allowN l s now n (allowN l s now m st).2).1,
          (allowN l s now n (allowN l s now m st).2).2)
  | 0, n, st => by simp [allowN]
  | m + 1, n, st => by
    have h : m + 1 + n = (m + n) + 1 := by omega
    rw [h, allowN, allowN]
    simp only []
    rw [allowN_append l s now m n]
    rfl
  termination_by m => m

/-- The decision list of the first sixty scenario calls, reindexed. -/
lemma scenario_list_aux :
    (⟨true, 59, 0⟩ : Decision) ::
        (List.range 59).map
          (fun (i : ℕ) => (⟨true, ((59 : ℕ) : ℤ) - 1 - (i : ℤ), 0⟩ : Decision)) =
      (List.range 60).map (fun (i : ℕ) => ⟨true, 59 - (i : ℤ), 0⟩) := by
  have h60 : List.range 60 = 0 :: (List.range 59).map Nat.succ := by
    rw [show (60 : ℕ) = 59 + 1 by norm_num, List.range_succ_eq_map]
  rw [h60, List.map_cons, List.map_map]
  simp only [List.cons.injEq]
  refine ⟨by norm_num, ?_⟩
  apply List.map_congr_left
  intro i _
  simp only [Function.comp_apply, Decision.mk.injEq, true_and, and_true]
  push_cast
  ring

/-- §8 scenario 6: 61 immediate calls against a fresh key; the first 60 are
allowed with remaining 59, 58, …, 0 and the 61st is denied with a
retry-after of 1000 ms. -/
lemma scenario61 (now : ℤ) :
    allowN bucket60 "alice" now 61 none =
      ((List.range 60).map (fun i => ⟨true, 59 - (i : ℤ), 0⟩) ++ [⟨false, 0, 1000⟩],
        some ⟨0, now⟩) := by
  have hfirst : allowN bucket60 "alice" now 1 none =
      ([⟨true, 59, 0⟩], some ⟨((59 : ℕ) : ℚ), now⟩) := by
    rw [allowN, allow_none60, allow_step_nat 60 (by norm_num) (by norm_num) now]
    simp [allowN]
  have hmid := allowN_down now 59 59 (le_refl _) (by norm_num)
  rw [show (59 - 59 : ℕ) = 0 by norm_num] at hmid
  have hlast : allowN bucket60 "alice" now 1 (some ⟨((0 : ℕ) : ℚ), now⟩) =
      ([⟨false, 0, 1000⟩], some ⟨0, now⟩) := by
    have h0 : ((0 : ℕ) : ℚ) = 0 := by norm_num
    rw [allowN, h0, allow_step_zero]
    simp [allowN]
  have hsplit : (61 : ℕ) = 1 + (59 + 1) := by norm_num
  rw [hsplit, allowN_append, hfirst]
  simp only []
  rw [allowN_append, hmid]
  simp only []
  rw [hlast]
  simp only [Prod.mk.injEq]
  refine ⟨?_, trivial⟩
  rw [List.singleton_append, ← List.cons_append]
  rw [scenario_list_aux]

/-- The script as a single formula over the refilled token count. -/
lemma script_formula (c r req : ℚ) (now ttl : ℤ) (st : Option BucketState) :
    runTokenBucketScript c r now req ttl st =
      (if req ≤ refilledTokens c r now st then
        (⟨true, ⌊refilledTokens c r now st - req⌋, 0⟩,
          ⟨refilledTokens c r now st - req, now⟩, ttl)
      else
        (⟨false, ⌊refilledTokens c r now st⌋,
            ⌈(req - refilledTokens c r now st) / r⌉⟩,
          ⟨refilledTokens c r now st, now⟩, ttl)) := by
  simp only [runTokenBucketScript, refilledTokens]

/-- Whatever the decision, Allow sets the limiter TTL on the key. -/
lemma allow_ttl (l : RedisTokenBucket) (subj : String) (now : ℤ)
    (st : Option BucketState) : (Allow l subj now st).2.2.2 = l.ttlMS := by
  rw [allow_unfold]
  simp only []
  rw [script_formula]
  split <;> rfl

/-- A successfully constructed limiter carries TTL = 2 × window. -/
lemma newBucket_ttl (cap wms : ℤ) (ns : String) (b : RedisTokenBucket)
    (hb : NewRedisTokenBucket cap wms ns = .ok b) : b.ttlMS = 2 * wms := by
  by_cases h1 : cap ≤ 0
  · simp [NewRedisTokenBucket, h1] at hb
  · by_cases h2 : wms ≤ 0
    · simp [NewRedisTokenBucket, h1, h2] at hb
    · simp only [NewRedisTokenBucket, if_neg h1, if_neg h2, Except.ok.injEq] at hb
      rw [← hb]

/-- C3.  The token-bucket Allow call: atomic update per the script formulas,
missing-state initialisation to full capacity, tie (exactly one token)
resolving as allowed, remaining reported as the floor of the post-call token
count, state written back with a TTL of twice the window, and the concrete
capacity-60 / 60 s-window scenario: 60 immediate calls for one subject all
allowed with strictly decreasing remaining 59, 58, …, 0, and the 61st denied
with retry_after_ms = 1000. -/
theorem C3_token_bucket_allow :
    (∀ (c r req : ℚ) (now ttl : ℤ) (st : Option BucketState),
      runTokenBucketScript c r now req ttl st =
        (if req ≤ refilledTokens c r now st then
          (⟨true, ⌊refilledTokens c r now st - req⌋, 0⟩,
            ⟨refilledTokens c r now st - req, now⟩, ttl)
        else
          (⟨false, ⌊refilledTokens c r now st⌋,
              ⌈(req - refilledTokens c r now st) / r⌉⟩,
            ⟨refilledTokens c r now st, now⟩, ttl))) ∧
    (∀ (c r req : ℚ) (now ttl : ℤ),
      runTokenBucketScript c r now req ttl none =
        runTokenBucketScript c r now req ttl (some ⟨c, now⟩)) ∧
    (∀ (c r : ℚ) (now ttl : ℤ) (st : Option BucketState),
      refilledTokens c r now st = 1 →
        (runTokenBucketScript c r now 1 ttl st).1.allowed = true) ∧
    (∀ (cap wms : ℤ) (ns : String) (b : RedisTokenBucket),
      NewRedisTokenBucket cap wms ns = .ok b →
        ∀ subj now st, (Allow b subj now st).2.2.2 = 2 * wms) ∧
    (∀ now : ℤ,
      (allowN bucket60 "alice" now 61 none).1 =
        (List.range 60).map (fun (i : ℕ) => ⟨true, 59 - (i : ℤ), 0⟩) ++
          [⟨false, 0, 1000⟩]) ∧
    (∀ (now : ℤ) (i j : ℕ), i < j → j < 60 →
      ((allowN bucket60 "alice" now 61 none).1.getD j ⟨false, 0, 0⟩).remaining <
        ((allowN bucket60 "alice" now 61 none).1.getD i ⟨false, 0, 0⟩).remaining) := by
  refine ⟨script_formula, ?_, ?_, ?_, ?_, ?_⟩
  · intro c r req now ttl
    exact script_none c r req now ttl
  · intro c r now ttl st h
    rw [script_formula, if_pos (le_of_eq h.symm)]
  · intro cap wms ns b hb subj now st
    rw [allow_ttl, newBucket_ttl cap wms ns b hb]
  · intro now
    rw [scenario61]
  · intro now i j hij hj
    have key : ∀ m, m < 60 →
        ((allowN bucket60 "alice" now 61 none).1.getD m ⟨false, 0, 0⟩) =
          ⟨true, 59 - (m : ℤ), 0⟩ := by
      intro m hm
      rw [scenario61]
      simp only []
      rw [List.getD_eq_getElem?_getD, List.getElem?_append_left (by simpa using hm),
        List.getElem?_map, List.getElem?_range hm]
      rfl
    rw [key j hj, key i (lt_trans hij hj)]
    simp only []
    omega

/-- Witness for C3: the TTL conjunct at the scenario limiter, and the tie
conjunct at a one-token bucket. -/
theorem C3_token_bucket_allow_witness :
    (Allow bucket60 "bob" 5 none).2.2.2 = 2 * 60000 ∧
      (runTokenBucketScript 2 1 5 1 7 (some ⟨1, 5⟩)).1.allowed = true := by
  constructor
  · exact C3_token_bucket_allow.2.2.2.1 60 60000 "pixelflow:ratelimit" bucket60
      newBucket60 "bob" 5 none
  · refine C3_token_bucket_allow.2.2.1 2 1 5 7 (some ⟨1, 5⟩) ?_
    show min (2 : ℚ) (1 + max 0 ((5 : ℚ) - (5 : ℚ)) * 1) = 1
    norm_num

end RateLimit

namespace Webhook

/-- minDuration is the lattice min on ℤ. -/
lemma minDuration_eq_min (a b : ℤ) : minDuration a b = min a b := by
  unfold minDuration
  rcases lt_or_ge a b with h | h
  · rw [if_pos h, min_eq_left h.le]
  · rw [if_neg (not_lt.mpr h), min_eq_right h]

/-- Every request in a loop trace is either inherited from the accumulator
or is the single precomputed request. -/
lemma sendLoop_attempts_mem (env : SendEnv) (req : AttemptRecord) (maxB : ℤ)
    (maxAtt : ℕ) :
    ∀ (fuel idx : ℕ) (backoff : ℤ) (acc : List AttemptRecord × List ℤ)
      (r : AttemptRecord),
      r ∈ (sendLoop env req maxB maxAtt fuel idx backoff acc).attempts →
        r ∈ acc.1 ∨ r = req
  | 0, idx, backoff, acc, r => fun h => Or.inl h
  | fuel + 1, idx, backoff, acc, r => by
    intro h
    rw [sendLoop] at h
    by_cases hc : env.ctx.cancelledAtCheck idx
    · rw [if_pos hc] at h
      exact Or.inl h
    · rw [if_neg hc] at h
      simp only [] at h
      by_cases hs : attemptSucceeds (env.doResult idx)
      · rw [if_pos hs] at h
        rcases List.mem_append.mp h with h1 | h1
        · exact Or.inl h1
        · exact Or.inr (List.mem_singleton.mp h1)
      · rw [if_neg hs] at h
        by_cases hlast : idx = maxAtt
        · rw [if_pos hlast] at h
          rcases List.mem_append.mp h with h1 | h1
          · exact Or.inl h1
          · exact Or.inr (List.mem_singleton.mp h1)
        · rw [if_neg hlast] at h
          by_cases hd : env.ctx.cancelledDuringSleep idx
          · rw [if_pos hd] at h
            rcases List.mem_append.mp h with h1 | h1
            · exact Or.inl h1
            · exact Or.inr (List.mem_singleton.mp h1)
          · rw [if_neg hd] at h
            rcases sendLoop_attempts_mem env req maxB maxAtt fuel (idx + 1)
                (minDuration (backoff * 2) maxB) (acc.1 ++ [req], acc.2 ++ [backoff])
                r h with h1 | h1
            · rcases List.mem_append.mp h1 with h2 | h2
              · exact Or.inl h2
              · exact Or.inr (List.mem_singleton.mp h2)
            · exact Or.inr h1
  termination_by fuel => fuel

/-- The loop performs at most `fuel` further attempts. -/
lemma sendLoop_length (env : SendEnv) (req : AttemptRecord) (maxB : ℤ)
    (maxAtt : ℕ) :
    ∀ (fuel idx : ℕ) (backoff : ℤ) (acc : List AttemptRecord × List ℤ),
      (sendLoop env req maxB maxAtt fuel idx backoff acc).attempts.length ≤
        acc.1.length + fuel
  | 0, idx, backoff, acc => by
    rw [sendLoop]
    simp
  | fuel + 1, idx, backoff, acc => by
    rw [sendLoop]
    by_cases hc : env.ctx.cancelledAtCheck idx
    · rw [if_pos hc]
      simp only []
      omega
    · rw [if_neg hc]
      simp only []
      by_cases hs : attemptSucceeds (env.doResult idx)
      · rw [if_pos hs]
        simp only [List.length_append, List.length_singleton]
        omega
      · rw [if_neg hs]
        by_cases hlast : idx = maxAtt
        · rw [if_pos hlast]
          simp only [List.length_append, List.length_singleton]
          omega
        · rw [if_neg hlast]
          by_cases hd : env.ctx.cancelledDuringSleep idx
          · rw [if_pos hd]
            simp only [List.length_append, List.length_singleton]
            omega
          · rw [if_neg hd]
            have h := sendLoop_length env req maxB maxAtt fuel (idx + 1)
              (minDuration (backoff * 2) maxB) (acc.1 ++ [req], acc.2 ++ [backoff])
            simp only [List.length_append, List.length_singleton] at h
            omega
  termination_by fuel => fuel

/-- With no cancellation and every attempt failing, the loop exhausts its
attempts, records the doubling-clamped sleeps, and errors. -/
lemma sendLoop_all_fail (env : SendEnv) (req : AttemptRecord) (maxB : ℤ)
    (maxAtt : ℕ)
    (hnc1 : ∀ i, env.ctx.cancelledAtCheck i = false)
    (hnc2 : ∀ i, env.ctx.cancelledDuringSleep i = false)
    (hfail : ∀ i, attemptSucceeds (env.doResult i) = false) :
    ∀ (fuel idx : ℕ) (backoff : ℤ) (acc : List AttemptRecord × List ℤ),
      1 ≤ idx → idx ≤ maxAtt → idx + fuel = maxAtt + 1 →
      (sendLoop env req maxB maxAtt fuel idx backoff acc).attempts =
          acc.1 ++ List.replicate fuel req ∧
        (sendLoop env req maxB maxAtt fuel idx backoff acc).sleepsNS =
          acc.2 ++ backoffSeq maxB backoff (fuel - 1) ∧
        ∃ e, (sendLoop env req maxB maxAtt fuel idx backoff acc).result = .error e
  | 0, idx, backoff, acc => by omega
  | fuel + 1, idx, backoff, acc => by
    intro hidx1 hidxm hsum
    rw [sendLoop]
    rw [if_neg (by rw [hnc1 idx]; exact Bool.false_ne_true)]
    simp only []
    rw [if_neg (by rw [hfail idx]; exact Bool.false_ne_true)]
    by_cases hlast : idx = maxAtt
    · rw [if_pos hlast]
      have hf0 : fuel = 0 := by omega
      subst hf0
      refine ⟨by simp, by simp [backoffSeq], ⟨_, rfl⟩⟩
    · rw [if_neg hlast]
      rw [if_neg (by rw [hnc2 idx]; exact Bool.false_ne_true)]
      have hfu : 1 ≤ fuel := by omega
      have h := sendLoop_all_fail env req maxB maxAtt hnc1 hnc2 hfail fuel (idx + 1)
        (minDuration (backoff * 2) maxB) (acc.1 ++ [req], acc.2 ++ [backoff])
        (by omega) (by omega) (by omega)
      refine ⟨?_, ?_, h.2.2⟩
      · rw [h.1]
        simp only [List.append_assoc, List.singleton_append]
        rw [List.replicate_succ]
      · rw [h.2.1]
        simp only [List.append_assoc, List.singleton_append]
        rw [show fuel + 1 - 1 = (fuel - 1) + 1 by omega, backoffSeq]
  termination_by fuel => fuel

/-- Closed form of the sleep sequence: the k-th sleep is the initial backoff
doubled k times, clamped at the max backoff. -/
lemma backoffSeq_getD (maxB : ℤ) :
    ∀ (n k : ℕ) (b : ℤ), k < n → 0 < b → b ≤ maxB →
      (backoffSeq maxB b n).getD k 0 = min (b * 2 ^ k) maxB
  | 0, k, b => by omega
  | n + 1, 0, b => by
    intro _ hb hbm
    rw [backoffSeq]
    simp only [List.getD_cons_zero]
    rw [pow_zero, mul_one, min_eq_left hbm]
  | n + 1, k + 1, b => by
    intro hk hb hbm
    rw [backoffSeq]
    simp only [List.getD_cons_succ]
    have hmaxpos : (0 : ℤ) < maxB := lt_of_lt_of_le hb hbm
    have hb' : 0 < minDuration (b * 2) maxB := by
      rw [minDuration_eq_min, lt_min_iff]
      exact ⟨by omega, hmaxpos⟩
    have hbm' : minDuration (b * 2) maxB ≤ maxB := by
      rw [minDuration_eq_min]
      exact min_le_right _ _
    rw [backoffSeq_getD maxB n k (minDuration (b * 2) maxB) (by omega) hb' hbm']
    rw [minDuration_eq_min]
    rcases le_or_lt (b * 2) maxB with h | h
    · rw [min_eq_left h]
      congr 1
      ring
    · rw [min_eq_right h.le]
      have h2k : (1 : ℤ) ≤ 2 ^ k := one_le_pow₀ (by omega : (1 : ℤ) ≤ 2)
      have hL : min (maxB * 2 ^ k) maxB = maxB := by
        apply min_eq_right
        calc maxB = maxB * 1 := by ring
        _ ≤ maxB * 2 ^ k := by
          apply mul_le_mul_of_nonneg_left h2k hmaxpos.le
      have hR : min (b * 2 ^ (k + 1)) maxB = maxB := by
        apply min_eq_right
        have hstep : maxB ≤ b * 2 * 2 ^ k := by
          calc maxB = maxB * 1 := by ring
          _ ≤ maxB * 2 ^ k := by apply mul_le_mul_of_nonneg_left h2k hmaxpos.le
          _ ≤ b * 2 * 2 ^ k := by
            apply mul_le_mul_of_nonneg_right h.le (by positivity)
        calc maxB ≤ b * 2 * 2 ^ k := hstep
        _ = b * 2 ^ (k + 1) := by ring
      rw [hL, hR]
  termination_by n => n

/-- A context cancellation observed at the check of attempt `j`, with all
earlier attempts failing uncancelled, stops the loop with a context error
after `j - idx` further requests. -/
lemma sendLoop_cancel (env : SendEnv) (req : AttemptRecord) (maxB : ℤ)
    (maxAtt : ℕ) (j : ℕ) (hstop : env.ctx.cancelledAtCheck j = true) :
    ∀ (fuel idx : ℕ) (backoff : ℤ) (acc : List AttemptRecord × List ℤ),
      idx ≤ j → j < idx + fuel → idx + fuel = maxAtt + 1 →
      (∀ i, idx ≤ i → i < j → env.ctx.cancelledAtCheck i = false ∧
        env.ctx.cancelledDuringSleep i = false ∧
        attemptSucceeds (env.doResult i) = false) →
      (sendLoop env req maxB maxAtt fuel idx backoff acc).attempts.length =
          acc.1.length + (j - idx) ∧
        (sendLoop env req maxB maxAtt fuel idx backoff acc).result =
          .error "context canceled"
  | 0, idx, backoff, acc => by omega
  | fuel + 1, idx, backoff, acc => by
    intro hle hlt hsum hpre
    rw [sendLoop]
    by_cases hij : idx = j
    · subst hij
      rw [if_pos hstop]
      refine ⟨?_, rfl⟩
      simp only []
      omega
    · have hidx : idx < j := by omega
      have hp := hpre idx (le_refl _) hidx
      rw [if_neg (by rw [hp.1]; exact Bool.false_ne_true)]
      simp only []
      rw [if_neg (by rw [hp.2.2]; exact Bool.false_ne_true)]
      rw [if_neg (by omega : ¬ idx = maxAtt)]
      rw [if_neg (by rw [hp.2.1]; exact Bool.false_ne_true)]
      have h := sendLoop_cancel env req maxB maxAtt j hstop fuel (idx + 1)
        (minDuration (backoff * 2) maxB) (acc.1 ++ [req], acc.2 ++ [backoff])
        (by omega) (by omega) (by omega)
        (fun i hi1 hi2 => hpre i (by omega) hi2)
      refine ⟨?_, h.2⟩
      rw [h.1]
      simp only [List.length_append, List.length_singleton]
      omega
  termination_by fuel => fuel

/-- C4.  Every webhook HTTP request produced by one Send call carries
Content-Type: application/json, X-Pixelflow-Event equal to the event name,
X-Pixelflow-Timestamp equal to the Unix-seconds timestamp sampled by the
call, X-Pixelflow-Signature equal to "sha256=" followed by the lowercase hex
of MAC(secret, timestamp ++ "." ++ body), and the JSON-marshalled payload as
its body. -/
theorem C4_webhook_request_shape
    (c : Client) (mac : List ℕ → List ℕ → List ℕ) (nowUnixAt : ℕ → ℤ)
    (env : SendEnv) (endpoint event : String) (body : List ℕ)
    (r : AttemptRecord)
    (hr : r ∈ (Send c mac nowUnixAt env endpoint event (.ok body)).attempts) :
    r.contentType = "application/json" ∧
    r.eventHeader = event ∧
    r.timestampHeader = toString (nowUnixAt 0) ∧
    r.signatureHeader = "sha256=" ++ hexOfBytes (mac c.signingSecret
      (strBytes (toString (nowUnixAt 0)) ++ strBytes "." ++ body)) ∧
    r.body = body := by
  by_cases he : goTrimSpace endpoint = ""
  · rw [Send, if_pos he] at hr
    exact absurd hr (List.not_mem_nil r)
  · rw [Send, if_neg he] at hr
    simp only [] at hr
    rcases sendLoop_attempts_mem _ _ _ _ _ _ _ _ r hr with h | h
    · exact absurd h (List.not_mem_nil r)
    · subst h
      exact ⟨rfl, rfl, rfl, rfl, rfl⟩

/-- Witness for C4: a concrete one-attempt delivery. -/
theorem C4_webhook_request_shape_witness :
    (⟨"http://cb", "application/json", "0",
        sign (NewClient (defaultWebhookConfig [7])) (fun k m => k ++ m) "0" [123],
        "job.completed", [123]⟩ : AttemptRecord) ∈
      (Send (NewClient (defaultWebhookConfig [7])) (fun k m => k ++ m)
        (fun _ => 0) ⟨⟨fun _ => false, fun _ => false⟩, fun _ => ⟨none, some 200⟩⟩
        "http://cb" "job.completed" (.ok [123])).attempts ∧
    (⟨"http://cb", "application/json", "0",
        sign (NewClient (defaultWebhookConfig [7])) (fun k m => k ++ m) "0" [123],
        "job.completed", [123]⟩ : AttemptRecord).signatureHeader =
      "sha256=" ++ hexOfBytes ((fun k m => k ++ m)
        (NewClient (defaultWebhookConfig [7])).signingSecret
        (strBytes (toString ((fun (_ : ℕ) => (0 : ℤ)) 0)) ++ strBytes "." ++ [123])) := by
  have hmem : (⟨"http://cb", "application/json", "0",
      sign (NewClient (defaultWebhookConfig [7])) (fun k m => k ++ m) "0" [123],
      "job.completed", [123]⟩ : AttemptRecord) ∈
      (Send (NewClient (defaultWebhookConfig [7])) (fun k m => k ++ m)
        (fun _ => 0) ⟨⟨fun _ => false, fun _ => false⟩, fun _ => ⟨none, some 200⟩⟩
        "http://cb" "job.completed" (.ok [123])).attempts := by
    decide
  exact ⟨hmem,
    (C4_webhook_request_shape (NewClient (defaultWebhookConfig [7]))
      (fun k m => k ++ m) (fun _ => 0)
      ⟨⟨fun _ => false, fun _ => false⟩, fun _ => ⟨none, some 200⟩⟩
      "http://cb" "job.completed" [123] _ hmem).2.2.2.1⟩

/-- C5.  Send makes at most max_attempts attempts (the configured default is
5, NewClient floors the value at 1); an attempt succeeds exactly when the
transport returned a response with status in [200, 300) and no error;
with every attempt failing and no cancellation all max_attempts attempts are
made, the sleeps between consecutive attempts start at the initial backoff
and double each attempt clamped at the max backoff, and Send ends in an
error; a context cancellation observed at attempt j aborts the remaining
retries with a context error. -/
theorem C5_webhook_retry_policy :
    ((NewClient (defaultWebhookConfig [])).maxAttempts = 5) ∧
    (∀ cfg : Config, (NewClient cfg).maxAttempts = max 1 cfg.maxAttempts) ∧
    (∀ cfg : Config, 0 < (NewClient cfg).initialBackoffNS ∧
      (NewClient cfg).initialBackoffNS ≤ (NewClient cfg).maxBackoffNS) ∧
    (∀ d : DoResult, attemptSucceeds d = true ↔
      (d.err = none ∧ ∃ st, d.status = some st ∧ 200 ≤ st ∧ st < 300)) ∧
    (∀ (c : Client) (mac : List ℕ → List ℕ → List ℕ) (nowUnixAt : ℕ → ℤ)
      (env : SendEnv) (endpoint event : String)
      (m : Except String (List ℕ)),
      (Send c mac nowUnixAt env endpoint event m).attempts.length ≤
        c.maxAttempts.toNat) ∧
    (∀ (c : Client) (mac : List ℕ → List ℕ → List ℕ) (nowUnixAt : ℕ → ℤ)
      (env : SendEnv) (endpoint event : String) (body : List ℕ),
      goTrimSpace endpoint ≠ "" →
      1 ≤ c.maxAttempts →
      0 < c.initialBackoffNS →
      c.initialBackoffNS ≤ c.maxBackoffNS →
      (∀ i, env.ctx.cancelledAtCheck i = false) →
      (∀ i, env.ctx.cancelledDuringSleep i = false) →
      (∀ i, attemptSucceeds (env.doResult i) = false) →
      (Send c mac nowUnixAt env endpoint event (.ok body)).attempts.length =
          c.maxAttempts.toNat ∧
        (∃ e, (Send c mac nowUnixAt env endpoint event (.ok body)).result =
          .error e) ∧
        (∀ k, k < c.maxAttempts.toNat - 1 →
          (Send c mac nowUnixAt env endpoint event (.ok body)).sleepsNS.getD k 0 =
            min (c.initialBackoffNS * 2 ^ k) c.maxBackoffNS)) ∧
    (∀ (c : Client) (mac : List ℕ → List ℕ → List ℕ) (nowUnixAt : ℕ → ℤ)
      (env : SendEnv) (endpoint event : String) (body : List ℕ) (j : ℕ),
      goTrimSpace endpoint ≠ "" →
      1 ≤ j → j ≤ c.maxAttempts.toNat →
      env.ctx.cancelledAtCheck j = true →
      (∀ i, 1 ≤ i → i < j → env.ctx.cancelledAtCheck i = false ∧
        env.ctx.cancelledDuringSleep i = false ∧
        attemptSucceeds (env.doResult i) = false) →
      (Send c mac nowUnixAt env endpoint event (.ok body)).attempts.length =
          j - 1 ∧
        (Send c mac nowUnixAt env endpoint event (.ok body)).result =
          .error "context canceled") := by
  refine ⟨rfl, ?_, ?_, ?_, ?_, ?_, ?_⟩
  · intro cfg
    show (if cfg.maxAttempts < 1 then 1 else cfg.maxAttempts) = max 1 cfg.maxAttempts
    rcases lt_or_ge cfg.maxAttempts 1 with h | h
    · rw [if_pos h, max_eq_left (by omega)]
    · rw [if_neg (not_lt.mpr h), max_eq_right h]
  · intro cfg
    constructor
    · show 0 < (if cfg.initialBackoffNS ≤ 0 then 1 * nsPerSecond else cfg.initialBackoffNS)
      rcases le_or_lt cfg.initialBackoffNS 0 with h | h
      · rw [if_pos h]
        norm_num [nsPerSecond]
      · rw [if_neg (not_le.mpr h)]
        exact h
    · show (NewClient cfg).initialBackoffNS ≤
        (if cfg.maxBackoffNS < (NewClient cfg).initialBackoffNS
          then (NewClient cfg).initialBackoffNS else cfg.maxBackoffNS)
      rcases lt_or_ge cfg.maxBackoffNS (NewClient cfg).initialBackoffNS with h | h
      · rw [if_pos h]
      · rw [if_neg (not_lt.mpr h)]
        exact h
  · intro d
    unfold attemptSucceeds
    constructor
    · intro h
      rcases hst : d.status with _ | st
      · rw [hst] at h
        simp at h
      · rw [hst] at h
        simp only [Bool.and_eq_true, decide_eq_true_eq] at h
        exact ⟨by simpa using h.1, st, rfl, h.2.1, h.2.2⟩
    · rintro ⟨herr, st, hst, h1, h2⟩
      rw [hst, herr]
      simp [h1, h2]
  · intro c mac nowUnixAt env endpoint event m
    by_cases he : goTrimSpace endpoint = ""
    · rw [Send.eq_def, if_pos he]
      simp
    · rw [Send.eq_def, if_neg he]
      rcases m with e | body
      · simp
      · simp only []
        have h := sendLoop_length env
          ⟨goTrimSpace endpoint, "application/json", toString (nowUnixAt 0),
        sign c mac (toString (nowUnixAt 0)) body, event, body⟩ c.maxBackoffNS c.maxAttempts.toNat
          c.maxAttempts.toNat 1 c.initialBackoffNS ([], [])
        simpa using h
  · intro c mac nowUnixAt env endpoint event body he hm hb0 hbm hnc1 hnc2 hfail
    rw [Send.eq_def, if_neg he]
    simp only []
    have hm1 : 1 ≤ c.maxAttempts.toNat := by omega
    have h := sendLoop_all_fail env
      ⟨goTrimSpace endpoint, "application/json", toString (nowUnixAt 0),
        sign c mac (toString (nowUnixAt 0)) body, event, body⟩ c.maxBackoffNS c.maxAttempts.toNat
      hnc1 hnc2 hfail c.maxAttempts.toNat 1 c.initialBackoffNS ([], [])
      (le_refl _) hm1 (by omega)
    refine ⟨?_, ?_, ?_⟩
    · rw [h.1]
      simp
    · exact h.2.2
    · intro k hk
      rw [h.2.1]
      simp only [List.nil_append]
      exact backoffSeq_getD c.maxBackoffNS (c.maxAttempts.toNat - 1) k
        c.initialBackoffNS hk hb0 hbm
  · intro c mac nowUnixAt env endpoint event body j he hj1 hjm hstop hpre
    rw [Send.eq_def, if_neg he]
    simp only []
    have h := sendLoop_cancel env
      ⟨goTrimSpace endpoint, "application/json", toString (nowUnixAt 0),
        sign c mac (toString (nowUnixAt 0)) body, event, body⟩ c.maxBackoffNS c.maxAttempts.toNat j hstop
      c.maxAttempts.toNat 1 c.initialBackoffNS ([], []) hj1 (by omega) (by omega)
      (fun i hi1 hi2 => hpre i hi1 hi2)
    refine ⟨?_, h.2⟩
    rw [h.1]
    simp

/-- Witness for C5: five failing attempts under the default configuration,
with the first sleep equal to the one-second initial backoff; and a
cancellation at the second attempt stopping after one request. -/
theorem C5_webhook_retry_policy_witness :
    ((Send (NewClient (defaultWebhookConfig [])) (fun k m => k ++ m) (fun _ => 0)
        ⟨⟨fun _ => false, fun _ => false⟩, fun _ => ⟨none, some 500⟩⟩
        "http://cb" "job.failed" (.ok [1])).attempts.length = 5 ∧
      (∃ e, (Send (NewClient (defaultWebhookConfig [])) (fun k m => k ++ m)
        (fun _ => 0) ⟨⟨fun _ => false, fun _ => false⟩, fun _ => ⟨none, some 500⟩⟩
        "http://cb" "job.failed" (.ok [1])).result = .error e)) ∧
    ((Send (NewClient (defaultWebhookConfig [])) (fun k m => k ++ m) (fun _ => 0)
        ⟨⟨fun i => decide (2 ≤ i), fun _ => false⟩, fun _ => ⟨some "refused", none⟩⟩
        "http://cb" "job.failed" (.ok [1])).attempts.length = 1 ∧
      (Send (NewClient (defaultWebhookConfig [])) (fun k m => k ++ m) (fun _ => 0)
        ⟨⟨fun i => decide (2 ≤ i), fun _ => false⟩, fun _ => ⟨some "refused", none⟩⟩
        "http://cb" "job.failed" (.ok [1])).result = .error "context canceled") := by
  constructor
  · have h := C5_webhook_retry_policy.2.2.2.2.2.1
      (NewClient (defaultWebhookConfig [])) (fun k m => k ++ m) (fun _ => 0)
      ⟨⟨fun _ => false, fun _ => false⟩, fun _ => ⟨none, some 500⟩⟩
      "http://cb" "job.failed" [1]
      (by decide) (by decide) (by decide) (by decide)
      (fun i => rfl) (fun i => rfl) (fun i => rfl)
    exact ⟨h.1, h.2.1⟩
  · have h := C5_webhook_retry_policy.2.2.2.2.2.2
      (NewClient (defaultWebhookConfig [])) (fun k m => k ++ m) (fun _ => 0)
      ⟨⟨fun i => decide (2 ≤ i), fun _ => false⟩, fun _ => ⟨some "refused", none⟩⟩
      "http://cb" "job.failed" [1] 2
      (by decide) (by decide) (by decide) (by decide)
      (fun i hi1 hi2 => by
        have : i = 1 := by omega
        subst this
        exact ⟨rfl, rfl, rfl⟩)
    exact ⟨h.1, h.2⟩

/-- C10.  The timestamp and signature of a Send call are computed once,
before the retry loop: every attempt of the call carries identical
X-Pixelflow-Timestamp and X-Pixelflow-Signature values, and the whole trace
depends on the clock only through its single sample at instant 0. -/
theorem C10_signature_timestamp_computed_once
    (c : Client) (mac : List ℕ → List ℕ → List ℕ) (now₁ now₂ : ℕ → ℤ)
    (env : SendEnv) (endpoint event : String) (m : Except String (List ℕ)) :
    (∀ r r', r ∈ (Send c mac now₁ env endpoint event m).attempts →
      r' ∈ (Send c mac now₁ env endpoint event m).attempts →
      r.timestampHeader = r'.timestampHeader ∧
        r.signatureHeader = r'.signatureHeader) ∧
    (now₁ 0 = now₂ 0 →
      Send c mac now₁ env endpoint event m = Send c mac now₂ env endpoint event m) := by
  constructor
  · intro r r' hr hr'
    by_cases he : goTrimSpace endpoint = ""
    · rw [Send.eq_def, if_pos he] at hr
      exact absurd hr (List.not_mem_nil r)
    · rcases m with e | body
      · rw [Send.eq_def, if_neg he] at hr
        simp only [] at hr
        exact absurd hr (List.not_mem_nil r)
      · rw [Send, if_neg he] at hr hr'
        simp only [] at hr hr'
        rcases sendLoop_attempts_mem _ _ _ _ _ _ _ _ r hr with h | h
        · exact absurd h (List.not_mem_nil r)
        · rcases sendLoop_attempts_mem _ _ _ _ _ _ _ _ r' hr' with h' | h'
          · exact absurd h' (List.not_mem_nil r')
          · subst h
            subst h'
            exact ⟨rfl, rfl⟩
  · intro h
    rw [Send.eq_def, Send.eq_def, h]

/-- Witness for C10: the clock-invariance conjunct at two clocks differing
everywhere except instant 0. -/
theorem C10_signature_timestamp_computed_once_witness :
    (fun (_ : ℕ) => (7 : ℤ)) 0 = (fun (i : ℕ) => 7 + (i : ℤ)) 0 ∧
      Send (NewClient (defaultWebhookConfig [])) (fun k m => k ++ m)
          (fun _ => 7) ⟨⟨fun _ => false, fun _ => false⟩, fun _ => ⟨none, some 204⟩⟩
          "http://cb" "job.completed" (.ok [9]) =
        Send (NewClient (defaultWebhookConfig [])) (fun k m => k ++ m)
          (fun i => 7 + (i : ℤ)) ⟨⟨fun _ => false, fun _ => false⟩,
            fun _ => ⟨none, some 204⟩⟩
          "http://cb" "job.completed" (.ok [9]) := by
  refine ⟨by norm_num, ?_⟩
  exact (C10_signature_timestamp_computed_once (NewClient (defaultWebhookConfig []))
    (fun k m => k ++ m) (fun _ => 7) (fun i => 7 + (i : ℤ))
    ⟨⟨fun _ => false, fun _ => false⟩, fun _ => ⟨none, some 204⟩⟩
    "http://cb" "job.completed" (.ok [9])).2 (by norm_num)

end Webhook

namespace Api

/-- C1 counterexample: a blob-store I/O failure during the existence check
is answered 409, not 500, contradicting the claim that 409 is returned only
for a missing source while check I/O failures get 500. -/
theorem C1_counterexample :
    (handleStartJob blobErrorStartEnv).1.status = 409 ∧
      ¬ (handleStartJob blobErrorStartEnv).1.status = 500 := by
  decide

/-- Any verification failure is answered 409 with the check's message and
nothing is enqueued. -/
lemma handleStartJob_conflict (env : StartEnv) (job : Job)
    (hget : env.getJob = .ok (some job)) (msg : String)
    (hv : verifySourceExists env job = some msg) :
    handleStartJob env = (⟨409, some msg⟩, false) := by
  simp only [handleStartJob, hget, hv]

/-- C1 (amended).  On POST /v1/jobs/{id}/start with the job present: a
missing source (filesystem stat reporting absence for local_file, blob stat
answering false otherwise) yields 409 with "source object is missing" and no
enqueue; in fact every failure of the existence check — including blob or
filesystem I/O errors, which produce "source object check failed" — is
answered 409 with no enqueue, and 409 arises only from that check; a store
failure loading the job yields 500. -/
theorem C1_start_job_conflict (env : StartEnv) (job : Job)
    (hget : env.getJob = .ok (some job)) :
    (job.sourceType = SourceTypeLocalFile → env.localStat = .notExist →
      handleStartJob env =
        (⟨409, some ("source object is missing: " ++ job.objectKey)⟩, false)) ∧
    (¬ job.sourceType = SourceTypeLocalFile → env.blobExists = .ok false →
      handleStartJob env =
        (⟨409, some ("source object is missing: " ++ job.objectKey)⟩, false)) ∧
    (∀ msg, verifySourceExists env job = some msg →
      handleStartJob env = (⟨409, some msg⟩, false)) ∧
    ((handleStartJob env).1.status = 409 ↔
      ∃ msg, verifySourceExists env job = some msg) ∧
    (∀ env' : StartEnv, (∃ e, env'.getJob = .error e) →
      handleStartJob env' = (⟨500, some "failed to load job"⟩, false)) := by
  refine ⟨?_, ?_, ?_, ?_, ?_⟩
  · intro hsrc hstat
    apply handleStartJob_conflict env job hget
    rw [verifySourceExists, if_pos hsrc, hstat]
  · intro hsrc hblob
    apply handleStartJob_conflict env job hget
    rw [verifySourceExists, if_neg hsrc, hblob]
  · intro msg hv
    exact handleStartJob_conflict env job hget msg hv
  · constructor
    · intro h409
      rcases hv : verifySourceExists env job with _ | msg
      · exfalso
        rcases henq : env.enqueue with e | info
        · simp only [handleStartJob, hget, hv, henq] at h409
          omega
        · simp only [handleStartJob, hget, hv, henq] at h409
          omega
      · exact ⟨msg, rfl⟩
    · rintro ⟨msg, hv⟩
      rw [handleStartJob_conflict env job hget msg hv]
  · rintro env' ⟨e, hget'⟩
    simp only [handleStartJob, hget']

/-- Witness for C1 (amended): a local job whose file is absent gets 409 with
the missing-source message and no enqueue. -/
theorem C1_start_job_conflict_witness :
    localMissingStartEnv.getJob = .ok (some localMissingJob) ∧
      localMissingJob.sourceType = SourceTypeLocalFile ∧
      localMissingStartEnv.localStat = .notExist ∧
      handleStartJob localMissingStartEnv =
        (⟨409, some ("source object is missing: " ++ "/tmp/in.png")⟩, false) := by
  refine ⟨rfl, rfl, rfl, ?_⟩
  exact (C1_start_job_conflict localMissingStartEnv localMissingJob rfl).1 rfl rfl

/-- Folding the tokenizer over whitespace leaves a clean between-token state
unchanged. -/
lemma lexStep_spaces (toks : List JToken) :
    ∀ n : ℕ,
      List.foldl lexStep ⟨toks, .top, false⟩ (List.replicate n ' ') =
        ⟨toks, .top, false⟩
  | 0 => rfl
  | n + 1 => by
    rw [List.replicate_succ, List.foldl_cons]
    have h : lexStep ⟨toks, .top, false⟩ ' ' = ⟨toks, .top, false⟩ := rfl
    rw [h]
    exact lexStep_spaces toks n

/-- Trailing whitespace after a cleanly tokenized prefix does not change the
token stream. -/
lemma lexChars_trailing_ws (cs : List Char) (n : ℕ)
    (hm : (List.foldl lexStep ⟨[], .top, false⟩ cs).mode = .top)
    (he : (List.foldl lexStep ⟨[], .top, false⟩ cs).err = false) :
    lexChars (cs ++ List.replicate n ' ') = lexChars cs := by
  rw [lexChars, lexChars, List.foldl_append]
  rcases hst : List.foldl lexStep ⟨[], .top, false⟩ cs with ⟨toks, mode, err⟩
  rw [hst] at hm he
  have hm' : mode = LexMode.top := hm
  have he' : err = false := he
  subst hm'
  subst he'
  rw [lexStep_spaces]

/-- The 1 MiB cap keeps exactly the document plus its whitespace padding and
drops the byte past the cap. -/
lemma bigBody_take :
    bigBody.take maxBodyBytes = jsonDocChars ++ List.replicate padCount ' ' := by
  have hlen : (jsonDocChars ++ List.replicate padCount ' ').length = maxBodyBytes := by
    rw [List.length_append, List.length_replicate]
    have h98 : jsonDocChars.length = 98 := by decide
    rw [h98]
    decide
  rw [bigBody]
  exact List.take_left' hlen

set_option maxRecDepth 10000 in
/-- The over-long counterexample body decodes exactly as its 98-byte
document: the cap truncates, the padding is whitespace, and the byte past
the cap is never seen. -/
lemma decodeJSON_bigBody : decodeJSON bigBody = decodeJSON jsonDocChars := by
  have h1 : lexChars (jsonDocChars ++ List.replicate padCount ' ') =
      lexChars jsonDocChars :=
    lexChars_trailing_ws jsonDocChars padCount (by decide) (by decide)
  have h2 : jsonDocChars.take maxBodyBytes = jsonDocChars :=
    List.take_of_length_le (by decide)
  rw [decodeJSON, decodeJSON, bigBody_take, h1, h2]

set_option maxRecDepth 10000 in
/-- C6 counterexample: a body one byte past the 1 MiB cap whose first 1 MiB
is a valid document (with whitespace padding) is accepted with 202, not
rejected with 400: the cap truncates instead of failing the decode. -/
theorem C6_counterexample :
    bigBody.length = maxBodyBytes + 1 ∧
      handleCreateJob goodCreateEnv bigBody = 202 ∧
      ¬ handleCreateJob goodCreateEnv bigBody = 400 := by
  have hd : handleCreateJob goodCreateEnv bigBody =
      handleCreateJob goodCreateEnv jsonDocChars := by
    rw [handleCreateJob, handleCreateJob, decodeJSON_bigBody]
  refine ⟨?_, ?_, ?_⟩
  · rw [bigBody, List.length_append, List.length_append, List.length_replicate]
    have h98 : jsonDocChars.length = 98 := by decide
    rw [h98]
    decide
  · rw [hd]
    decide
  · rw [hd]
    decide

/-- validateSteps succeeds exactly when every step has a non-blank id and a
non-blank action, whatever the starting index. -/
lemma validateSteps_none_iff :
    ∀ (steps : List PipelineStep) (i : ℕ),
      validateSteps steps i = none ↔
        ∀ step ∈ steps,
          ¬ goTrimSpace step.id = "" ∧ ¬ goTrimSpace step.action = ""
  | [], i => by simp [validateSteps]
  | step :: rest, i => by
    rw [validateSteps]
    by_cases h1 : goTrimSpace step.id = ""
    · rw [if_pos h1]
      constructor
      · intro hc
        simp at hc
      · intro hc
        exact absurd h1 (hc step (List.mem_cons_self step rest)).1
    · rw [if_neg h1]
      by_cases h2 : goTrimSpace step.action = ""
      · rw [if_pos h2]
        constructor
        · intro hc
          simp at hc
        · intro hc
          exact absurd h2 (hc step (List.mem_cons_self step rest)).2
      · rw [if_neg h2, validateSteps_none_iff rest (i + 1)]
        constructor
        · intro hall s hs
          rcases List.mem_cons.mp hs with h | h
          · subst h
            exact ⟨h1, h2⟩
          · exact hall s h
        · intro hall s hs
          exact hall s (List.mem_cons_of_mem _ hs)

/-- Validate succeeds exactly when the trimmed, lowered source type is one of
the two supported values, local_file carries a non-blank object key, the
pipeline is non-empty, and every step has a non-blank id and action. -/
lemma Validate_none_iff (r : CreateJobRequest) :
    Validate r = none ↔
      ((goToLower (goTrimSpace r.sourceType) = SourceTypeLocalFile ∨
          goToLower (goTrimSpace r.sourceType) = SourceTypeS3Presigned) ∧
        (goToLower (goTrimSpace r.sourceType) = SourceTypeLocalFile →
          ¬ goTrimSpace r.objectKey = "") ∧
        ¬ r.pipeline = [] ∧
        ∀ step ∈ r.pipeline,
          ¬ goTrimSpace step.id = "" ∧ ¬ goTrimSpace step.action = "") := by
  simp only [Validate]
  by_cases h0 : goToLower (goTrimSpace r.sourceType) = ""
  · rw [if_pos h0]
    constructor
    · intro hc
      simp at hc
    · rintro ⟨h | h, -, -, -⟩ <;> rw [h] at h0 <;> exact absurd h0 (by decide)
  · rw [if_neg h0]
    by_cases h1 : goToLower (goTrimSpace r.sourceType) = SourceTypeLocalFile ∨
        goToLower (goTrimSpace r.sourceType) = SourceTypeS3Presigned
    · rw [if_neg (not_not_intro h1)]
      by_cases h2 : goToLower (goTrimSpace r.sourceType) = SourceTypeLocalFile ∧
          goTrimSpace r.objectKey = ""
      · rw [if_pos h2]
        constructor
        · intro hc
          simp at hc
        · rintro ⟨-, hk, -, -⟩
          exact absurd h2.2 (hk h2.1)
      · rw [if_neg h2]
        by_cases h3 : r.pipeline = []
        · rw [if_pos h3]
          constructor
          · intro hc
            simp at hc
          · rintro ⟨-, -, hp, -⟩
            exact absurd h3 hp
        · rw [if_neg h3, validateSteps_none_iff r.pipeline 0]
          constructor
          · intro hall
            exact ⟨h1, fun hl hk => h2 ⟨hl, hk⟩, h3, hall⟩
          · rintro ⟨-, -, -, hall⟩
            exact hall
    · rw [if_pos h1]
      constructor
      · intro hc
        simp at hc
      · rintro ⟨h, -, -, -⟩
        exact absurd h h1

set_option maxRecDepth 10000 in
/-- C6 (amended).  POST /v1/jobs answers 400 exactly when decoding or
validation of the request fails; but the 1 MiB cap truncates the body rather
than rejecting it: decoding any body equals decoding its first 1 MiB, so an
over-long body whose first 1 MiB is one valid document is accepted (see the
counterexample).  Decoding does fail on an unknown field and on multiple
top-level documents, and validation fails exactly per the claim's
enumeration. -/
theorem C6_create_job_400 :
    (∀ (env : CreateEnv) (body : List Char),
      handleCreateJob env body = 400 ↔
        ((∃ e, decodeJSON body = .error e) ∨
          ∃ req, decodeJSON body = .ok req ∧ ¬ Validate req = none)) ∧
    (∀ body : List Char, decodeJSON body = decodeJSON (body.take maxBodyBytes)) ∧
    (∀ r : CreateJobRequest, Validate r = none ↔
      ((goToLower (goTrimSpace r.sourceType) = SourceTypeLocalFile ∨
          goToLower (goTrimSpace r.sourceType) = SourceTypeS3Presigned) ∧
        (goToLower (goTrimSpace r.sourceType) = SourceTypeLocalFile →
          ¬ goTrimSpace r.objectKey = "") ∧
        ¬ r.pipeline = [] ∧
        ∀ step ∈ r.pipeline,
          ¬ goTrimSpace step.id = "" ∧ ¬ goTrimSpace step.action = "")) ∧
    decodeJSON unknownFieldBody = .error "invalid JSON body: unknown field bogus" ∧
    decodeJSON multiDocBody =
      .error "invalid JSON body: multiple JSON values are not allowed" := by
  refine ⟨?_, ?_, fun r => Validate_none_iff r, by decide, by decide⟩
  · intro env body
    rcases hd : decodeJSON body with e | req
    · simp only [handleCreateJob, hd]
      constructor
      · intro _
        exact Or.inl ⟨e, rfl⟩
      · intro _
        trivial
    · simp only [handleCreateJob, hd]
      rcases hv : Validate req with _ | msg
      · simp only [hv]
        constructor
        · intro h400
          exfalso
          by_cases hs : goToLower (goTrimSpace req.sourceType) = SourceTypeS3Presigned
          · rw [if_pos hs] at h400
            rcases hp : env.presign with e1 | u1 <;> simp only [hp] at h400
            · exact absurd h400 (by decide)
            · rcases hc : env.storeCreate with e2 | u2 <;> simp only [hc] at h400
              · exact absurd h400 (by decide)
              · exact absurd h400 (by decide)
          · rw [if_neg hs] at h400
            rcases hc : env.storeCreate with e2 | u2 <;> simp only [hc] at h400
            · exact absurd h400 (by decide)
            · exact absurd h400 (by decide)
        · rintro (⟨e, he⟩ | ⟨req', hr, hv'⟩)
          · cases he
          · injection hr with h
            subst h
            exact absurd hv hv'
      · simp only [hv]
        constructor
        · intro _
          refine Or.inr ⟨req, rfl, ?_⟩
          rw [hv]
          simp
        · intro _
          trivial
  · intro body
    rw [decodeJSON, decodeJSON, List.take_take, min_self]

set_option maxRecDepth 10000 in
/-- C6 witness: the amended theorem applied at the unknown-field and
multi-document bodies yields the concrete 400 responses. -/
theorem C6_create_job_400_witness :
    handleCreateJob goodCreateEnv unknownFieldBody = 400 ∧
      handleCreateJob goodCreateEnv multiDocBody = 400 := by
  constructor
  · exact (C6_create_job_400.1 goodCreateEnv unknownFieldBody).mpr
      (Or.inl ⟨"invalid JSON body: unknown field bogus", by decide⟩)
  · exact (C6_create_job_400.1 goodCreateEnv multiDocBody).mpr
      (Or.inl ⟨"invalid JSON body: multiple JSON values are not allowed", by decide⟩)

end Api

namespace Pipeline

/-- The step loop makes no further fetch calls. -/
lemma runSteps_fetch_count (env : ProcEnv) (req : Request) (src : List ℕ) :
    ∀ (steps : List PipelineStep) (acc : List Output) (tr : List TraceEvent),
      ((runSteps env req src steps acc tr).2).count TraceEvent.fetchCall =
        tr.count TraceEvent.fetchCall
  | [], acc, tr => rfl
  | step :: rest, acc, tr => by
    rw [runSteps]
    simp only []
    rcases ht : env.transform src step with e | ⟨data, format, w, h⟩
    · simp only [ht, List.count_append]
      simp
    · simp only [ht]
      rcases he : env.emit req step data format w h with e | written
      · simp only [he, List.count_append]
        simp
      · simp only [he]
        rw [runSteps_fetch_count env req src rest (acc ++ [written])
          ((tr ++ [TraceEvent.transformCall src step.id]) ++
            [TraceEvent.emitCall step.id])]
        simp [List.count_append]

/-- Every transform call the loop records carries the shared source. -/
lemma runSteps_transform_input (env : ProcEnv) (req : Request) (src : List ℕ) :
    ∀ (steps : List PipelineStep) (acc : List Output) (tr : List TraceEvent),
      (∀ input sid, TraceEvent.transformCall input sid ∈ tr → input = src) →
      ∀ input sid,
        TraceEvent.transformCall input sid ∈ (runSteps env req src steps acc tr).2 →
          input = src
  | [], acc, tr => fun h => h
  | step :: rest, acc, tr => by
    intro hpre input sid hmem
    rw [runSteps] at hmem
    simp only [] at hmem
    have hext : ∀ input' sid',
        TraceEvent.transformCall input' sid' ∈
          tr ++ [TraceEvent.transformCall src step.id] → input' = src := by
      intro input' sid' h
      rcases List.mem_append.mp h with h1 | h1
      · exact hpre input' sid' h1
      · cases List.mem_singleton.mp h1
        rfl
    have hext2 : ∀ input' sid',
        TraceEvent.transformCall input' sid' ∈
          (tr ++ [TraceEvent.transformCall src step.id]) ++
            [TraceEvent.emitCall step.id] → input' = src := by
      intro input' sid' h
      rcases List.mem_append.mp h with h1 | h1
      · exact hext input' sid' h1
      · exact absurd (List.mem_singleton.mp h1) (by simp)
    rcases ht : env.transform src step with e | ⟨data, format, w, h⟩
    · simp only [ht] at hmem
      exact hext input sid hmem
    · simp only [ht] at hmem
      rcases he : env.emit req step data format w h with e | written
      · simp only [he] at hmem
        exact hext2 input sid hmem
      · simp only [he] at hmem
        exact runSteps_transform_input env req src rest (acc ++ [written]) _
          hext2 input sid hmem

/-- A failing run returns an empty outputs vector. -/
lemma runSteps_error_empty (env : ProcEnv) (req : Request) (src : List ℕ) :
    ∀ (steps : List PipelineStep) (acc : List Output) (tr : List TraceEvent),
      ((runSteps env req src steps acc tr).1.2).isSome = true →
        (runSteps env req src steps acc tr).1.1.outputs = []
  | [], acc, tr => by
    intro h
    simp [runSteps] at h
  | step :: rest, acc, tr => by
    intro h
    rw [runSteps] at h ⊢
    simp only [] at h ⊢
    rcases ht : env.transform src step with e | ⟨data, format, w, hgt⟩
    · simp only [ht]
    · simp only [ht] at h ⊢
      rcases he : env.emit req step data format w hgt with e | written
      · simp only [he]
      · simp only [he] at h ⊢
        exact runSteps_error_empty env req src rest (acc ++ [written]) _ h

/-- A fully successful run appends one output per step, in order, and logs
the transform/emit calls in order. -/
lemma runSteps_success (env : ProcEnv) (req : Request) (src : List ℕ) :
    ∀ (steps : List PipelineStep) (outs : List Output) (acc : List Output)
      (tr : List TraceEvent),
      stepsOutputs env req src steps = some outs →
      runSteps env req src steps acc tr =
        ((⟨acc ++ outs⟩, none), tr ++ stepsTrace src steps)
  | [], outs, acc, tr => by
    intro h
    simp only [stepsOutputs, Option.some.injEq] at h
    subst h
    simp [runSteps, stepsTrace]
  | step :: rest, outs, acc, tr => by
    intro h
    rw [stepsOutputs] at h
    rw [runSteps]
    simp only [] at h ⊢
    rcases ht : stepOutput env req src step with e | o
    · rw [ht] at h
      simp at h
    · rw [ht] at h
      simp only [Option.map_eq_some'] at h
      rcases h with ⟨outs', houts', rfl⟩
      rcases hts : env.transform src step with e | ⟨data, format, w, hgt⟩
      · rw [stepOutput] at ht
        simp only [hts] at ht
        exact absurd ht (by simp)
      · rw [stepOutput] at ht
        simp only [hts] at ht
        simp only [hts]
        rcases hem : env.emit req step data format w hgt with e | written
        · simp only [hem] at ht
          exact absurd ht (by simp)
        · simp only [hem] at ht
          simp only [hem]
          obtain rfl := Except.ok.inj ht
          rw [runSteps_success env req src rest outs' (acc ++ [written]) _ houts']
          simp [stepsTrace, List.append_assoc]

/-- A run that fails at some step reports an error. -/
lemma runSteps_failure (env : ProcEnv) (req : Request) (src : List ℕ) :
    ∀ (steps : List PipelineStep) (acc : List Output) (tr : List TraceEvent),
      stepsOutputs env req src steps = none →
        ((runSteps env req src steps acc tr).1.2).isSome = true
  | [], acc, tr => by
    intro h
    simp [stepsOutputs] at h
  | step :: rest, acc, tr => by
    intro h
    rw [stepsOutputs] at h
    rw [runSteps]
    simp only [] at h ⊢
    rcases hts : env.transform src step with e | ⟨data, format, w, hgt⟩
    · simp only [hts]
      rfl
    · simp only [hts]
      rcases hem : env.emit req step data format w hgt with e | written
      · simp only [hem]
        rfl
      · simp only [hem]
        rw [stepOutput] at h
        simp only [hts, hem] at h
        have hrest : stepsOutputs env req src rest = none := by
          rcases hro : stepsOutputs env req src rest with _ | outs'
          · rfl
          · rw [hro] at h
            simp at h
        exact runSteps_failure env req src rest (acc ++ [written]) _ hrest

/-- One output per successful step. -/
lemma stepsOutputs_length (env : ProcEnv) (req : Request) (src : List ℕ) :
    ∀ (steps : List PipelineStep) (outs : List Output),
      stepsOutputs env req src steps = some outs → outs.length = steps.length
  | [], outs => by
    intro h
    simp only [stepsOutputs, Option.some.injEq] at h
    subst h
    rfl
  | step :: rest, outs => by
    intro h
    rw [stepsOutputs] at h
    rcases ht : stepOutput env req src step with e | o
    · rw [ht] at h
      simp at h
    · rw [ht] at h
      simp only [Option.map_eq_some'] at h
      rcases h with ⟨outs', houts', rfl⟩
      simp [stepsOutputs_length env req src rest outs' houts']

/-- C8.  For every Request with a non-empty job id and non-empty step list:
the Fetcher is invoked exactly once and every Transform call receives the
one fetched buffer; steps run sequentially in declaration order; any
transform or emit failure makes Process return an error with an empty
outputs vector; on success the outputs vector holds exactly one Output per
step, in declaration order, produced by that step's transform-then-emit. -/
theorem C8_process_pipeline (env : ProcEnv) (req : Request)
    (hjob : ¬ goTrimSpace req.jobID = "") (hpipe : ¬ req.pipeline = []) :
    ((Process env req).2).count TraceEvent.fetchCall = 1 ∧
    (∀ input sid, TraceEvent.transformCall input sid ∈ (Process env req).2 →
      env.fetch = .ok input) ∧
    (((Process env req).1.2).isSome = true →
      (Process env req).1.1.outputs = []) ∧
    (∀ src outs, env.fetch = .ok src →
      stepsOutputs env req src req.pipeline = some outs →
      Process env req =
        ((⟨outs⟩, none), TraceEvent.fetchCall :: stepsTrace src req.pipeline) ∧
        outs.length = req.pipeline.length) ∧
    (∀ src, env.fetch = .ok src →
      stepsOutputs env req src req.pipeline = none →
      ((Process env req).1.2).isSome = true) := by
  refine ⟨?_, ?_, ?_, ?_, ?_⟩
  · rw [Process, if_neg hjob, if_neg hpipe]
    rcases hf : env.fetch with e | src
    · rfl
    · rw [runSteps_fetch_count env req src req.pipeline [] [TraceEvent.fetchCall]]
      rfl
  · intro input sid hmem
    rw [Process, if_neg hjob, if_neg hpipe] at hmem
    rcases hf : env.fetch with e | src
    · simp only [hf] at hmem
      exact absurd (List.mem_singleton.mp hmem) (by simp)
    · simp only [hf] at hmem
      have h := runSteps_transform_input env req src req.pipeline []
        [TraceEvent.fetchCall]
        (fun input' sid' h' => absurd (List.mem_singleton.mp h') (by simp))
        input sid hmem
      rw [h]
  · intro herr
    rw [Process, if_neg hjob, if_neg hpipe] at herr ⊢
    rcases hf : env.fetch with e | src
    · simp only [hf]
    · simp only [hf] at herr ⊢
      exact runSteps_error_empty env req src req.pipeline [] _ herr
  · intro src outs hf houts
    rw [Process, if_neg hjob, if_neg hpipe]
    simp only [hf]
    refine ⟨?_, stepsOutputs_length env req src req.pipeline outs houts⟩
    rw [runSteps_success env req src req.pipeline outs [] _ houts]
    simp
  · intro src hf houts
    rw [Process, if_neg hjob, if_neg hpipe]
    simp only [hf]
    exact runSteps_failure env req src req.pipeline [] _ houts

/-- Witness for C8: a two-step pipeline over a concrete environment fetches
once and emits two outputs in order. -/
theorem C8_process_pipeline_witness :
    ¬ goTrimSpace (sampleProcReq.jobID) = "" ∧
    ¬ sampleProcReq.pipeline = [] ∧
    ((Process sampleProcEnv sampleProcReq).2).count TraceEvent.fetchCall = 1 ∧
    stepsOutputs sampleProcEnv sampleProcReq [1, 2] sampleProcReq.pipeline =
      some [sampleOutput "a", sampleOutput "b"] ∧
    Process sampleProcEnv sampleProcReq =
      (((⟨[sampleOutput "a", sampleOutput "b"]⟩ : Result), none),
        TraceEvent.fetchCall :: stepsTrace [1, 2] sampleProcReq.pipeline) := by
  have h1 : ¬ goTrimSpace (sampleProcReq.jobID) = "" := by decide
  have h2 : ¬ sampleProcReq.pipeline = [] := by decide
  have h4 : stepsOutputs sampleProcEnv sampleProcReq [1, 2] sampleProcReq.pipeline =
      some [sampleOutput "a", sampleOutput "b"] := by decide
  refine ⟨h1, h2, (C8_process_pipeline sampleProcEnv sampleProcReq h1 h2).1, h4, ?_⟩
  exact ((C8_process_pipeline sampleProcEnv sampleProcReq h1 h2).2.2.2.1
    [1, 2] [sampleOutput "a", sampleOutput "b"] rfl h4).1

end Pipeline

namespace Worker

/-- C2.  The worker handler: a payload parse failure returns skip_retry with
no effects; a pipeline failure writes processing then failed, attempts the
job.failed webhook best-effort (its outcome does not change the handler's
return), writes no usage, and returns a retriable error; a pipeline success
writes processing then succeeded, records usage, attempts the job.completed
webhook, returns a retriable error exactly when that webhook fails
terminally, and otherwise returns success. -/
theorem C2_process_image_handler :
    (∀ (env : WorkerEnv) (durNS : ℕ) (e : String), env.parse = .error e →
      handleProcessImage env durNS =
        (.skipRetry ("parse payload: " ++ e), ⟨[], [], []⟩)) ∧
    (∀ (env : WorkerEnv) (durNS : ℕ) (payload : Payload) (e : String),
      env.parse = .ok payload → env.pipelineOutcome = .error e →
      (handleProcessImage env durNS).1 = .retriable ("run pipeline: " ++ e) ∧
      (handleProcessImage env durNS).2.statusWrites =
        [JobStatusProcessing, JobStatusFailed] ∧
      (¬ payload.webhookURL = "" →
        (handleProcessImage env durNS).2.webhookSends = ["job.failed"]) ∧
      (handleProcessImage env durNS).2.usageWrites = [] ∧
      (∀ r r' : Except String Unit,
        (handleProcessImage ⟨env.parse, env.pipelineOutcome, r,
          env.completedWebhook, env.jobLookup⟩ durNS).1 =
        (handleProcessImage ⟨env.parse, env.pipelineOutcome, r',
          env.completedWebhook, env.jobLookup⟩ durNS).1)) ∧
    (∀ (env : WorkerEnv) (durNS : ℕ) (payload : Payload)
      (result : PipelineResult),
      env.parse = .ok payload → env.pipelineOutcome = .ok result →
      (handleProcessImage env durNS).2.statusWrites =
        [JobStatusProcessing, JobStatusSucceeded] ∧
      (handleProcessImage env durNS).2.usageWrites =
        [recordUsage env.jobLookup payload.jobID result durNS] ∧
      (¬ payload.webhookURL = "" →
        (handleProcessImage env durNS).2.webhookSends = ["job.completed"]) ∧
      (∀ e, ¬ payload.webhookURL = "" → env.completedWebhook = .error e →
        (handleProcessImage env durNS).1 =
          .retriable ("dispatch webhook: " ++ e)) ∧
      ((env.completedWebhook = .ok () ∨ payload.webhookURL = "") →
        (handleProcessImage env durNS).1 = .ok)) := by
  refine ⟨?_, ?_, ?_⟩
  · intro env durNS e hp
    simp only [handleProcessImage, hp]
  · intro env durNS payload e hp hpl
    refine ⟨?_, ?_, ?_, ?_, ?_⟩
    · simp only [handleProcessImage, hp, hpl]
    · simp only [handleProcessImage, hp, hpl]
    · intro hurl
      simp only [handleProcessImage, hp, hpl, dispatchWebhook, if_neg hurl]
      rcases env.failedWebhook with e' | u
      · rfl
      · rfl
    · simp only [handleProcessImage, hp, hpl]
    · intro r r'
      simp only [handleProcessImage, hp, hpl]
  · intro env durNS payload result hp hpl
    refine ⟨?_, ?_, ?_, ?_, ?_⟩
    · simp only [handleProcessImage, hp, hpl, dispatchWebhook]
      by_cases hurl : payload.webhookURL = ""
      · rw [if_pos hurl]
      · rw [if_neg hurl]
        rcases env.completedWebhook with e' | u
        · rfl
        · rfl
    · simp only [handleProcessImage, hp, hpl, dispatchWebhook]
      by_cases hurl : payload.webhookURL = ""
      · rw [if_pos hurl]
      · rw [if_neg hurl]
        rcases env.completedWebhook with e' | u
        · rfl
        · rfl
    · intro hurl
      simp only [handleProcessImage, hp, hpl, dispatchWebhook, if_neg hurl]
      rcases env.completedWebhook with e' | u
      · rfl
      · rfl
    · intro e hurl hcw
      simp only [handleProcessImage, hp, hpl, dispatchWebhook, if_neg hurl, hcw]
    · intro h
      rcases h with hok | hurl
      · simp only [handleProcessImage, hp, hpl, dispatchWebhook, hok]
        by_cases hurl : payload.webhookURL = ""
        · rw [if_pos hurl]
        · rw [if_neg hurl]
      · simp only [handleProcessImage, hp, hpl, dispatchWebhook, if_pos hurl]

/-- Witness for C2: a successful pipeline with a failing job.completed
webhook returns a retriable error after writing processing, succeeded and
one usage row. -/
theorem C2_process_image_handler_witness :
    (WorkerEnv.mk (.ok samplePayload) (.ok usageClampResult) (.ok ())
        (.error "status=503") (.ok none)).parse = .ok samplePayload ∧
    (WorkerEnv.mk (.ok samplePayload) (.ok usageClampResult) (.ok ())
        (.error "status=503") (.ok none)).pipelineOutcome = .ok usageClampResult ∧
    ¬ samplePayload.webhookURL = "" ∧
    (handleProcessImage (WorkerEnv.mk (.ok samplePayload) (.ok usageClampResult)
        (.ok ()) (.error "status=503") (.ok none)) 0).1 =
      .retriable ("dispatch webhook: " ++ "status=503") := by
  refine ⟨rfl, rfl, by decide, ?_⟩
  exact (C2_process_image_handler.2.2
    (WorkerEnv.mk (.ok samplePayload) (.ok usageClampResult) (.ok ())
      (.error "status=503") (.ok none)) 0 samplePayload usageClampResult rfl
    rfl).2.2.2.1 "status=503" (by decide) rfl

/-- C7 counterexample: on a 1.5 ms wall clock the worker stores
compute_time_ms = 1 (truncated milliseconds), while the claimed
max(1, ceil(milliseconds)) equals 2. -/
theorem C7_counterexample :
    (recordUsage (.ok none) "job-7" usageClampResult 1500000).computeTimeMS = 1 ∧
      ¬ (recordUsage (.ok none) "job-7" usageClampResult 1500000).computeTimeMS =
        max 1 ⌈(1500000 : ℚ) / 1000000⌉ := by
  have hms : (recordUsage (.ok none) "job-7" usageClampResult 1500000).computeTimeMS
      = 1 := by decide
  have hceil : ⌈(1500000 : ℚ) / 1000000⌉ = 2 := by
    have hq : (1500000 : ℚ) / 1000000 = 3 / 2 := by norm_num
    rw [hq]
    rw [Int.ceil_eq_iff]
    constructor <;> norm_num
  refine ⟨hms, ?_⟩
  rw [hms, hceil, max_eq_right (by norm_num : (1 : ℤ) ≤ 2)]
  norm_num

/-- After an upsert every row under the usage key equals the upserted row,
and there is exactly one of them. -/
lemma filter_map_upsert (u : UsageLog) :
    ∀ table : List UsageLog,
      (table.map (fun row => if row.jobID = u.jobID then u else row)).filter
          (fun r => r.jobID = u.jobID) =
        List.replicate
          ((table.filter (fun r => r.jobID = u.jobID)).length) u
  | [] => rfl
  | row :: rest => by
    by_cases h : row.jobID = u.jobID
    · simp only [List.map_cons, if_pos h, List.filter_cons]
      rw [if_pos (by simp), if_pos (by simp [h])]
      rw [List.length_cons, List.replicate_succ]
      rw [filter_map_upsert u rest]
    · simp only [List.map_cons, if_neg h, List.filter_cons]
      rw [if_neg (by simp [h]), if_neg (by simp [h])]
      exact filter_map_upsert u rest

/-- CreateUsageLog leaves exactly one row under the key when the table had
at most one. -/
lemma createUsageLog_upsert (table : List UsageLog) (u : UsageLog)
    (h1 : (table.filter (fun r => r.jobID = u.jobID)).length ≤ 1) :
    (CreateUsageLog table u).filter (fun r => r.jobID = u.jobID) = [u] := by
  rw [CreateUsageLog]
  by_cases hany : table.any (fun row => row.jobID = u.jobID)
  · rw [if_pos hany]
    rw [filter_map_upsert u table]
    have hpos : 1 ≤ (table.filter (fun r => r.jobID = u.jobID)).length := by
      rcases List.any_eq_true.mp hany with ⟨row, hmem, hrow⟩
      have hin : row ∈ table.filter (fun r => r.jobID = u.jobID) :=
        List.mem_filter.mpr ⟨hmem, hrow⟩
      exact List.length_pos.mpr (List.ne_nil_of_mem hin)
    have : (table.filter (fun r => r.jobID = u.jobID)).length = 1 := by omega
    rw [this]
    rfl
  · rw [if_neg hany]
    rw [List.filter_append]
    have hnil : table.filter (fun r => r.jobID = u.jobID) = [] := by
      apply List.filter_eq_nil_iff.mpr
      intro row hmem hrow
      exact hany (List.any_eq_true.mpr ⟨row, hmem, hrow⟩)
    rw [hnil]
    simp

/-- C7 (amended).  After a successful pipeline run the worker writes exactly
one usage row, keyed and upserted by job id (a redelivery overwrites rather
than duplicates), with pixels_processed = Σ width·height over the outputs,
bytes_saved = max(0, sourceBytes − Σ output bytes), and compute_time_ms =
max(1, t) where t is the wall-clock duration in truncated (floored) integer
milliseconds — not the ceiling the claim states. -/
theorem C7_usage_accounting :
    (∀ (lookup : Except String (Option Job)) (jobID : String)
      (result : PipelineResult) (durNS : ℕ),
      (recordUsage lookup jobID result durNS).pixelsProcessed =
        (result.outputs.map (fun o => o.width * o.height)).sum ∧
      (recordUsage lookup jobID result durNS).bytesSaved =
        max 0 (result.sourceBytes - (result.outputs.map (fun o => o.bytes)).sum) ∧
      (recordUsage lookup jobID result durNS).computeTimeMS =
        max 1 ((durNS / 1000000 : ℕ) : ℤ) ∧
      (recordUsage lookup jobID result durNS).jobID = jobID) ∧
    (∀ (table : List UsageLog) (u : UsageLog),
      (table.filter (fun r => r.jobID = u.jobID)).length ≤ 1 →
      (CreateUsageLog table u).filter (fun r => r.jobID = u.jobID) = [u]) ∧
    (∀ (table : List UsageLog) (u₁ u₂ : UsageLog), u₁.jobID = u₂.jobID →
      (table.filter (fun r => r.jobID = u₁.jobID)).length ≤ 1 →
      (CreateUsageLog (CreateUsageLog table u₁) u₂).filter
        (fun r => r.jobID = u₂.jobID) = [u₂]) ∧
    (∀ (env : WorkerEnv) (durNS : ℕ) (payload : Payload)
      (result : PipelineResult),
      env.parse = .ok payload → env.pipelineOutcome = .ok result →
      (handleProcessImage env durNS).2.usageWrites =
        [recordUsage env.jobLookup payload.jobID result durNS]) := by
  refine ⟨?_, createUsageLog_upsert, ?_, ?_⟩
  · intro lookup jobID result durNS
    refine ⟨rfl, ?_, ?_, rfl⟩
    · show (if result.sourceBytes - (result.outputs.map (fun o => o.bytes)).sum < 0
          then 0 else result.sourceBytes - (result.outputs.map (fun o => o.bytes)).sum) = _
      rcases lt_or_ge (result.sourceBytes - (result.outputs.map (fun o => o.bytes)).sum) 0
        with h | h
      · rw [if_pos h, max_eq_left h.le]
      · rw [if_neg (not_lt.mpr h), max_eq_right h]
    · show (if ((durNS / 1000000 : ℕ) : ℤ) < 1 then 1
          else ((durNS / 1000000 : ℕ) : ℤ)) = _
      rcases lt_or_ge ((durNS / 1000000 : ℕ) : ℤ) 1 with h | h
      · rw [if_pos h, max_eq_left h.le]
      · rw [if_neg (not_lt.mpr h), max_eq_right h]
  · intro table u₁ u₂ hid h1
    apply createUsageLog_upsert
    have h2 : (CreateUsageLog table u₁).filter (fun r => r.jobID = u₂.jobID) =
        [u₁] := by
      rw [← hid]
      exact createUsageLog_upsert table u₁ h1
    rw [h2]
    simp
  · intro env durNS payload result hp hpl
    simp only [handleProcessImage, hp, hpl, dispatchWebhook]
    by_cases hurl : payload.webhookURL = ""
    · rw [if_pos hurl]
    · rw [if_neg hurl]
      rcases env.completedWebhook with e' | u
      · rfl
      · rfl

/-- Witness for C7 (amended): §8 scenario 4 — source 100 bytes, one 5×5
output of 200 bytes, zero elapsed time — yields pixels 25, bytes_saved 0,
compute_time_ms 1; and upserting the same job twice leaves exactly one row. -/
theorem C7_usage_accounting_witness :
    (recordUsage (.ok none) "job-7" usageClampResult 0).pixelsProcessed = 25 ∧
    (recordUsage (.ok none) "job-7" usageClampResult 0).bytesSaved = 0 ∧
    (recordUsage (.ok none) "job-7" usageClampResult 0).computeTimeMS = 1 ∧
    (recordUsage (.ok none) "job-7" usageClampResult 0).jobID =
      (recordUsage (.ok none) "job-7" usageClampResult 0).jobID ∧
    (([] : List UsageLog).filter (fun r => r.jobID =
      (recordUsage (.ok none) "job-7" usageClampResult 0).jobID)).length ≤ 1 ∧
    (CreateUsageLog (CreateUsageLog []
        (recordUsage (.ok none) "job-7" usageClampResult 0))
        (recordUsage (.ok none) "job-7" usageClampResult 0)).filter
        (fun r => r.jobID =
          (recordUsage (.ok none) "job-7" usageClampResult 0).jobID) =
      [recordUsage (.ok none) "job-7" usageClampResult 0] := by
  refine ⟨by decide, by decide, by decide, rfl, by decide, ?_⟩
  exact C7_usage_accounting.2.2.1 []
    (recordUsage (.ok none) "job-7" usageClampResult 0)
    (recordUsage (.ok none) "job-7" usageClampResult 0) rfl (by decide)

end Worker

namespace Transform

/-- C9 counterexample: a non-empty unknown step format ("gif") over a jpeg
source yields "png", not the source's detected format as claimed. -/
theorem C9_counterexample :
    chooseOutputFormat "gif" "jpeg" = "png" ∧
      ¬ chooseOutputFormat "gif" "jpeg" = "jpeg" := by
  decide

/-- C9 (amended).  The output format of a transform step: the source's
detected format when step.format is empty; "png" — not the source format —
when step.format is non-empty but unknown (not jpeg, jpg, png, webp after
trimming and lowering); "jpg" normalising to "jpeg"; an undetectable source
fails decoding (so no format is chosen); and jpeg encoding replaces a
quality outside (0,100] with 80. -/
theorem C9_output_format_selection :
    (∀ stepFormat srcFormat : String, goTrimSpace stepFormat = "" →
      chooseOutputFormat stepFormat srcFormat =
        normalizeOutputFormat (goToLower srcFormat)) ∧
    (∀ stepFormat srcFormat : String, goTrimSpace stepFormat = "" →
      (goToLower srcFormat = "jpeg" ∨ goToLower srcFormat = "png" ∨
        goToLower srcFormat = "webp") →
      chooseOutputFormat stepFormat srcFormat = goToLower srcFormat) ∧
    (∀ stepFormat srcFormat : String, ¬ goTrimSpace stepFormat = "" →
      chooseOutputFormat stepFormat srcFormat =
        normalizeOutputFormat (goToLower (goTrimSpace stepFormat))) ∧
    (∀ f : String, ¬ f = "jpg" → ¬ f = "jpeg" → ¬ f = "png" → ¬ f = "webp" →
      normalizeOutputFormat f = "png") ∧
    (normalizeOutputFormat "jpg" = "jpeg") ∧
    (∀ stepFormat : String,
      transformFormat none stepFormat = .error "decode source image") ∧
    (∀ q : ℤ, q ≤ 0 ∨ q > 100 → encodeImage "jpeg" q = .ok (some 80)) ∧
    (∀ q : ℤ, 0 < q → q ≤ 100 → encodeImage "jpeg" q = .ok (some q)) := by
  refine ⟨?_, ?_, ?_, ?_, rfl, fun _ => rfl, ?_, ?_⟩
  · intro stepFormat srcFormat h
    rw [chooseOutputFormat]
    simp [h]
  · intro stepFormat srcFormat h hsrc
    rw [chooseOutputFormat]
    simp only [h, if_true]
    rcases hsrc with h1 | h1 | h1 <;> rw [h1] <;> rfl
  · intro stepFormat srcFormat h
    rw [chooseOutputFormat]
    simp [h]
  · intro f h1 h2 h3 h4
    rw [normalizeOutputFormat, if_neg h1, if_neg (by simp [h2, h3, h4])]
  · intro q hq
    rw [encodeImage, if_pos rfl, effectiveJpegQuality, if_pos hq]
  · intro q h1 h2
    rw [encodeImage, if_pos rfl, effectiveJpegQuality,
      if_neg (by omega)]

/-- Witness for C9 (amended): empty step format over a png source keeps png;
"jpg" over a jpeg source becomes "jpeg"; jpeg quality 0 becomes 80 and
quality 75 is kept. -/
theorem C9_output_format_selection_witness :
    goTrimSpace "" = "" ∧
    chooseOutputFormat "" "png" = "png" ∧
    ¬ goTrimSpace " JPG " = "" ∧
    chooseOutputFormat " JPG " "png" = "jpeg" ∧
    encodeImage "jpeg" 0 = .ok (some 80) ∧
    encodeImage "jpeg" 75 = .ok (some 75) := by
  refine ⟨rfl, ?_, by decide, ?_, ?_, ?_⟩
  · exact C9_output_format_selection.2.1 "" "png" rfl (by decide)
  · rw [C9_output_format_selection.2.2.1 " JPG " "png" (by decide)]
    decide
  · exact C9_output_format_selection.2.2.2.2.2.2.1 0 (Or.inl (by norm_num))
  · exact C9_output_format_selection.2.2.2.2.2.2.2 75 (by norm_num) (by norm_num)

end Transform

end PixelFlow
